import Mathlib

/-!
# Load balancer simulation: shallow embedding and verified properties

The development embeds the C++ sources `include/request.h`, `include/web_server.h`,
`include/load_balancer.h`, `src/load_balancer.cpp` and `src/main.cpp`.

Modelling conventions.

* C++ `int` values are `Int`.  The product `100 * num_servers` of the constructor, which
  leaves the `int` range for inputs that `main` accepts, is wrapped to 32 bits (`wrap_int`);
  the counters of the loop stay far inside the range and are not wrapped.
* `std::queue<Request>` is a `List Request`, head of the list = front of the queue.
* `std::vector<WebServer*>` is a `List WebServer`; the pointed-to objects are owned by the
  vector only, so the pool is the list of their values.
* The shared `std::ostream&` is the list of the lines written so far, one `Record` per line.
* `rand()` is a stream `rand : Nat → Nat` of non-negative draws; the number of draws consumed so
  far is the ghost field `rand_calls`.
* `WebServer::current` is not initialised by the constructor: its strings are empty and its
  `time` is indeterminate.  The indeterminate value of the `k`-th allocated server is `uninit k`;
  the number of allocations so far is the ghost field `allocs`.
* `double` values are exact rationals, together with the IEEE results of a division by zero.
-/

namespace LB

/-- `struct Request` (request.h). -/
structure Request where
  ip_in : String
  ip_out : String
  time : Int
deriving DecidableEq, Repr

/-- One line written to the output stream. -/
inductive Record where
  /-- "Web server n opened." -/
  | server_opened (n : Int)
  /-- "Web server n closed." -/
  | server_closed (n : Int)
  /-- "Web server n: request from a to b :: Duration t Cycles" -/
  | server_request (n : Int) (request : Request)
  /-- "Web server n request complete. Opening for new request." -/
  | server_complete (n : Int)
  /-- "Number of servers: n" -/
  | init_servers (n : Int)
  /-- "Total cycles to run: t cycles" -/
  | init_cycles (t : Int)
  /-- "Number of requests in queue: n" -/
  | init_queue (n : Int)
  /-- "Max request cycles: n cycles" -/
  | init_max (n : Int)
  /-- "Min request cycles: n cycles" -/
  | init_min (n : Int)
  /-- "######################## Load balancer initialized ########################" -/
  | init_banner
  /-- "######################## CYCLE n ########################" -/
  | cycle_header (n : Int)
  /-- "Current queue size: q" -/
  | current_queue_size (q : Int)
  /-- "No requests processed this cycle: all servers busy." -/
  | all_servers_busy
  /-- "Queue Size: q" -/
  | queue_size (q : Int)
  /-- "Number of idle servers: n" -/
  | idle_servers (n : Int)
  /-- "Number of total servers: n" -/
  | total_servers (n : Int)
  /-- "Adding new server n due to high load." -/
  | adding_server (n : Nat)
  /-- "Removing server n due to low load." -/
  | removing_server (n : Nat)
  /-- "######################## Load balancer closed ########################" -/
  | closed_banner
  /-- "Server n still processing request from a to b :: Duration t Cycles" -/
  | still_processing (n : Int) (request : Request)
  /-- "Processed time: t Cycles" -/
  | processed_time (t : Int)
  /-- "Server n is idle and ready for new requests." -/
  | idle_and_ready (n : Int)
  /-- "Number of requests remaining in queue: q" -/
  | requests_remaining (q : Nat)
  /-- "Number of busy servers: n" -/
  | busy_servers (n : Int)
  /-- "Load Balancer Started." -/
  | started
deriving DecidableEq, Repr

/-- `class WebServer` (web_server.h), without the stream reference. -/
structure WebServer where
  num_webserver : Int
  current : Request
  is_idle : Bool
  processed_time : Int
deriving DecidableEq, Repr

namespace WebServer

/-- `WebServer::WebServer`: `is_idle = true`, `processed_time = 0`, `current` default-initialised
(`junk` is the indeterminate `current.time`); writes the "opened" line. -/
def new (num_webserver : Int) (junk : Int) : WebServer × List Record :=
  ({ num_webserver := num_webserver
     current := { ip_in := "", ip_out := "", time := junk }
     is_idle := true
     processed_time := 0 },
   [Record.server_opened num_webserver])

/-- `WebServer::~WebServer`: writes the "closed" line. -/
def destructor (s : WebServer) : List Record :=
  [Record.server_closed s.num_webserver]

/-- `WebServer::handle_request`. -/
def handle_request (s : WebServer) (request : Request) : WebServer × List Record :=
  ({ s with is_idle := false, processed_time := 0, current := request },
   [Record.server_request s.num_webserver request])

/-- `WebServer::pass_time`. -/
def pass_time (s : WebServer) : WebServer × List Record :=
  let s1 := { s with processed_time := s.processed_time + 1 }
  if s1.processed_time ≥ s1.current.time then
    ({ s1 with is_idle := true, processed_time := 0 },
     [Record.server_complete s1.num_webserver])
  else
    (s1, [])

end WebServer

/-- Value of a `double` expression obtained by dividing a non-negative by an `int`. -/
inductive Double where
  | nan
  | inf
  | fin (r : ℚ)
deriving DecidableEq

namespace Double

/-- `static_cast<double>(a) / b` for a size `a` and an `int` `b`. -/
def div (a : Nat) (b : Int) : Double :=
  if b = 0 then (if a = 0 then nan else inf) else fin ((a : ℚ) / (b : ℚ))

/-- `x > t` for a finite constant `t`. -/
def gt (x : Double) (t : ℚ) : Bool :=
  match x with
  | nan => false
  | inf => true
  | fin r => decide (r > t)

/-- `x < t` for a finite constant `t`. -/
def lt (x : Double) (t : ℚ) : Bool :=
  match x with
  | nan => false
  | inf => false
  | fin r => decide (r < t)

end Double

/-- Result of an `int` operation whose mathematical value is `x`: the value wrapped to 32 bits,
two's complement.  It is `x` itself when `x` fits in an `int`; signed overflow is undefined in
C++, and wrapping is what the usual builds compute. -/
def wrap_int (x : Int) : Int :=
  (x + 2147483648) % 4294967296 - 2147483648

/-- Exceptions thrown by the library calls of the program. -/
inductive Exception where
  /-- `std::length_error`. -/
  | length_error
deriving DecidableEq, Repr

/-- `servers.reserve(n)` for an `int` `n`: the argument is converted to `size_t`, so a negative
`n` is a size above `max_size()` and the call throws `std::length_error`; otherwise the call
changes no value of the model (failure of the allocation itself is not modelled). -/
def reserve (n : Int) : Except Exception Unit :=
  if n < 0 then Except.error Exception.length_error else Except.ok ()

/-- How a run of the program ends: `main` returns a code, or `std::terminate` is called because
an exception was not caught. -/
inductive Exit where
  | returned (code : Int)
  | terminated (e : Exception)
deriving DecidableEq, Repr

/-- `class LoadBalancer` (load_balancer.h); `rand_calls` and `allocs` are ghost counters. -/
structure LoadBalancer where
  num_servers : Int
  time_to_run : Int
  time_elapsed : Int
  min_request_time : Int
  max_request_time : Int
  output_stream : List Record
  request_queue : List Request
  servers : List WebServer
  rand_calls : Nat
  allocs : Nat

namespace LoadBalancer

/-- `LoadBalancer::is_finished`. -/
def is_finished (lb : LoadBalancer) : Bool :=
  decide (lb.time_elapsed ≥ lb.time_to_run)

/-- `LoadBalancer::add_request`. -/
def add_request (lb : LoadBalancer) (req : Request) : LoadBalancer :=
  { lb with request_queue := lb.request_queue ++ [req] }

/-- One octet `std::to_string(rand() % 256)`. -/
def octet (draw : Nat) : String :=
  toString (Int.tmod (draw : Int) 256)

/-- `LoadBalancer::generate_random_ip`, the four draws taken left to right. -/
def generate_random_ip (rand : Nat → Nat) (lb : LoadBalancer) : String × LoadBalancer :=
  (octet (rand lb.rand_calls) ++ "." ++ octet (rand (lb.rand_calls + 1)) ++ "." ++
     octet (rand (lb.rand_calls + 2)) ++ "." ++ octet (rand (lb.rand_calls + 3)),
   { lb with rand_calls := lb.rand_calls + 4 })

/-- `LoadBalancer::generate_random_request`. -/
def generate_random_request (rand : Nat → Nat) (lb : LoadBalancer) : Request × LoadBalancer :=
  let r1 := generate_random_ip rand lb
  let r2 := generate_random_ip rand r1.2
  let lb2 := r2.2
  let time := lb2.min_request_time +
    Int.tmod (rand lb2.rand_calls : Int) (lb2.max_request_time - lb2.min_request_time + 1)
  ({ ip_in := r1.1, ip_out := r2.1, time := time },
   { lb2 with rand_calls := lb2.rand_calls + 1 })

/-- The constructor loop `for (i = 0; i < NUM_STARTING_REQUESTS; ++i)`, `n` iterations left. -/
def fill_queue (rand : Nat → Nat) : Nat → LoadBalancer → LoadBalancer
  | 0, lb => lb
  | n + 1, lb =>
    let r := generate_random_request rand lb
    fill_queue rand n { r.2 with request_queue := r.2.request_queue ++ [r.1] }

/-- The constructor loop `for (i = 0; i < num_servers; ++i)`, from index `i`, `n` iterations
left. -/
def fill_servers (uninit : Nat → Int) : Nat → Int → LoadBalancer → LoadBalancer
  | 0, _, lb => lb
  | n + 1, i, lb =>
    let r := WebServer.new (i + 1) (uninit lb.allocs)
    fill_servers uninit n (i + 1)
      { lb with servers := lb.servers ++ [r.1]
                output_stream := lb.output_stream ++ r.2
                allocs := lb.allocs + 1 }

/-- The member initialisers of the constructor and the default member initialisers of the
class; `out` is the content of the stream before the call. -/
def members (num_servers time_to_run : Int) (out : List Record) : LoadBalancer :=
  { num_servers := num_servers
    time_to_run := time_to_run
    time_elapsed := 0
    min_request_time := 5
    max_request_time := 45
    output_stream := out
    request_queue := []
    servers := []
    rand_calls := 0
    allocs := 0 }

/-- `LoadBalancer::LoadBalancer(num_servers, time_to_run, output_stream)`; `out` is the content
of the stream before the call.  The product `100 * num_servers` is an `int` product, and
`servers.reserve(num_servers)` throws when `num_servers` is negative: the object is then not
constructed and nothing has been written. -/
def new (rand : Nat → Nat) (uninit : Nat → Int) (num_servers time_to_run : Int)
    (out : List Record) : Except Exception LoadBalancer :=
  let lb0 := members num_servers time_to_run out
  let NUM_STARTING_REQUESTS : Int := wrap_int (100 * num_servers)
  let lb1 := fill_queue rand NUM_STARTING_REQUESTS.toNat lb0
  match reserve num_servers with
  | Except.error e => Except.error e
  | Except.ok _ =>
    let lb2 := fill_servers uninit num_servers.toNat 0 lb1
    Except.ok
      { lb2 with output_stream := lb2.output_stream ++
          [Record.init_servers lb2.num_servers, Record.init_cycles lb2.time_to_run,
           Record.init_queue NUM_STARTING_REQUESTS, Record.init_max lb2.max_request_time,
           Record.init_min lb2.min_request_time, Record.init_banner] }

/-- The state that the constructor returns when `reserve` does not throw
(`new_of_nonneg`): the body of `new` without the `reserve` call. -/
def constructed (rand : Nat → Nat) (uninit : Nat → Int) (num_servers time_to_run : Int)
    (out : List Record) : LoadBalancer :=
  let lb0 := members num_servers time_to_run out
  let NUM_STARTING_REQUESTS : Int := wrap_int (100 * num_servers)
  let lb1 := fill_queue rand NUM_STARTING_REQUESTS.toNat lb0
  let lb2 := fill_servers uninit num_servers.toNat 0 lb1
  { lb2 with output_stream := lb2.output_stream ++
      [Record.init_servers lb2.num_servers, Record.init_cycles lb2.time_to_run,
       Record.init_queue NUM_STARTING_REQUESTS, Record.init_max lb2.max_request_time,
       Record.init_min lb2.min_request_time, Record.init_banner] }

/-- Local state of the assignment loop of `handle_requests`. -/
structure Assign where
  request_queue : List Request
  num_idle_servers : Int
  has_processed_request : Bool
  output : List Record

/-- The loop `for (auto* server : servers)` of the assignment pass. -/
def assign_loop : List WebServer → Assign → List WebServer × Assign
  | [], st => ([], st)
  | server :: rest, st =>
    match server.is_idle, st.request_queue with
    | true, req :: queue =>
      let r := server.handle_request req
      let rest1 := assign_loop rest
        { request_queue := queue
          num_idle_servers := st.num_idle_servers - 1
          has_processed_request := true
          output := st.output ++ r.2 }
      (r.1 :: rest1.1, rest1.2)
    | true, [] =>
      let rest1 := assign_loop rest st
      (server :: rest1.1, rest1.2)
    | false, _ =>
      let rest1 := assign_loop rest
        { st with num_idle_servers := st.num_idle_servers - 1 }
      (server :: rest1.1, rest1.2)

/-- Lines 118-144 of `handle_requests`: cycle header, assignment pass and its report. -/
def assignment_pass (lb : LoadBalancer) : LoadBalancer :=
  let queue_size : Int := lb.request_queue.length
  let out0 := lb.output_stream ++
    [Record.cycle_header (lb.time_elapsed + 1), Record.current_queue_size queue_size]
  let r := assign_loop lb.servers
    { request_queue := lb.request_queue
      num_idle_servers := lb.num_servers
      has_processed_request := false
      output := out0 }
  let st := r.2
  let out1 :=
    if !st.has_processed_request && decide (queue_size > 0) then
      st.output ++ [Record.all_servers_busy, Record.queue_size queue_size]
    else st.output
  { lb with servers := r.1
            request_queue := st.request_queue
            output_stream := out1 ++
              [Record.idle_servers st.num_idle_servers, Record.total_servers lb.num_servers] }

/-- The loop `for (auto* server : servers) server->pass_time()`. -/
def pass_time_loop : List WebServer → List WebServer × List Record
  | [] => ([], [])
  | server :: rest =>
    let r := server.pass_time
    let rest1 := pass_time_loop rest
    (r.1 :: rest1.1, r.2 ++ rest1.2)

/-- Lines 146-149 of `handle_requests`: the time advance pass. -/
def time_advance_pass (lb : LoadBalancer) : LoadBalancer :=
  let r := pass_time_loop lb.servers
  { lb with servers := r.1, output_stream := lb.output_stream ++ r.2 }

/-- `ADD_THRESHOLD = 1.8`. -/
def ADD_THRESHOLD : ℚ := 9 / 5

/-- `REMOVE_THRESHOLD = 1.0`. -/
def REMOVE_THRESHOLD : ℚ := 1

/-- `queue_per_server = static_cast<double>(request_queue.size()) / num_servers`. -/
def queue_per_server (lb : LoadBalancer) : Double :=
  Double.div lb.request_queue.length lb.num_servers

/-- Lines 151-167 of `handle_requests`: the scaling pass. -/
def scaling_pass (uninit : Nat → Int) (lb : LoadBalancer) : LoadBalancer :=
  if (queue_per_server lb).gt ADD_THRESHOLD then
    let r := WebServer.new ((lb.servers.length + 1 : Nat) : Int) (uninit lb.allocs)
    { lb with output_stream :=
                lb.output_stream ++ [Record.adding_server (lb.servers.length + 1)] ++ r.2
              servers := lb.servers ++ [r.1]
              allocs := lb.allocs + 1
              num_servers := lb.num_servers + 1 }
  else if (queue_per_server lb).lt REMOVE_THRESHOLD && decide (lb.servers.length > 1) then
    match lb.servers.getLast? with
    | some last =>
      { lb with output_stream :=
                  lb.output_stream ++ [Record.removing_server lb.servers.length] ++ last.destructor
                servers := lb.servers.dropLast
                num_servers := lb.num_servers - 1 }
    | none => lb
  else lb

/-- Lines 170-174 of `handle_requests`: the random arrival. -/
def arrival (rand : Nat → Nat) (lb : LoadBalancer) : LoadBalancer :=
  let lb1 := { lb with rand_calls := lb.rand_calls + 1 }
  if Int.tmod (rand lb.rand_calls : Int) 3 = 0 then
    let r := generate_random_request rand lb1
    r.2.add_request r.1
  else lb1

/-- The body of the `while` loop of `handle_requests`: one cycle. -/
def cycle (rand : Nat → Nat) (uninit : Nat → Int) (lb : LoadBalancer) : LoadBalancer :=
  let lb1 := assignment_pass lb
  let lb2 := time_advance_pass lb1
  let lb3 := scaling_pass uninit lb2
  let lb4 := { lb3 with time_elapsed := lb3.time_elapsed + 1 }
  arrival rand lb4

/-- The loop `while (!is_finished()) ...` run for at most `fuel` iterations. -/
def while_loop (rand : Nat → Nat) (uninit : Nat → Int) : Nat → LoadBalancer → LoadBalancer
  | 0, lb => lb
  | fuel + 1, lb =>
    if lb.is_finished then lb else while_loop rand uninit fuel (cycle rand uninit lb)

/-- `LoadBalancer::handle_requests`.  The loop is given `time_to_run - time_elapsed` iterations,
which is the number it needs (`handle_requests_unfold`). -/
def handle_requests (rand : Nat → Nat) (uninit : Nat → Int) (lb : LoadBalancer) : LoadBalancer :=
  while_loop rand uninit (lb.time_to_run - lb.time_elapsed).toNat lb

/-- The first loop of `~LoadBalancer`: the status lines of the servers and the number of busy
servers, starting from the count `num_busy_servers`. -/
def final_status : List WebServer → Int → List Record × Int
  | [], num_busy_servers => ([], num_busy_servers)
  | server :: rest, num_busy_servers =>
    if !server.is_idle then
      let r := final_status rest (num_busy_servers + 1)
      (Record.still_processing server.num_webserver server.current ::
         Record.processed_time server.processed_time :: r.1, r.2)
    else
      let r := final_status rest num_busy_servers
      (Record.idle_and_ready server.num_webserver :: r.1, r.2)

/-- The second loop of `~LoadBalancer`: `delete server` for every server. -/
def delete_servers : List WebServer → List Record
  | [] => []
  | server :: rest => server.destructor ++ delete_servers rest

/-- `LoadBalancer::~LoadBalancer`: the state once the body has run (before the members are
destroyed). -/
def destructor (lb : LoadBalancer) : LoadBalancer :=
  let r := final_status lb.servers 0
  let num_busy_servers := r.2
  { lb with
    servers := []
    output_stream := lb.output_stream ++ [Record.closed_banner] ++ r.1 ++
      delete_servers lb.servers ++
      [Record.requests_remaining lb.request_queue.length,
       Record.busy_servers num_busy_servers,
       Record.idle_servers (lb.num_servers - num_busy_servers)] }

/-- State after `k` executions of the loop body, whatever `is_finished` says. -/
def cycles (rand : Nat → Nat) (uninit : Nat → Int) : Nat → LoadBalancer → LoadBalancer
  | 0, lb => lb
  | k + 1, lb => cycles rand uninit k (cycle rand uninit lb)

end LoadBalancer

/-- `k` successive calls of `pass_time` on one server. -/
def pass_times : Nat → WebServer → WebServer
  | 0, s => s
  | k + 1, s => pass_times k s.pass_time.1

/-- Number of idle workers of a pool. -/
def idle_count (servers : List WebServer) : Nat :=
  servers.countP (fun s => s.is_idle)

/-- The requests of the assignment lines ("Web server n: request from ...") of a log, in the
order in which they were written: the requests handed to servers, in dequeue order. -/
def dequeued : List Record → List Request
  | [] => []
  | Record.server_request _ r :: out => r :: dequeued out
  | _ :: out => dequeued out

/-- The numbers of the cycle header lines ("#### CYCLE n ####") of a log, in the order in which
they were written. -/
def cycle_headers : List Record → List Int
  | [] => []
  | Record.cycle_header n :: out => n :: cycle_headers out
  | _ :: out => cycle_headers out

/-- `main` (main.cpp) once the three answers have been read from the terminal: the number of
cycles `AMOUNT_TIME`, the number of servers `NUM_SERVERS`, and whether the log file could be
opened.  The result is how the program ends and the lines written to the log file.  `main`
catches nothing, so an exception of the constructor terminates the program, the log holding
the one line written before; otherwise the destructor of `load_balancer` runs when `main`
returns. -/
def main (rand : Nat → Nat) (uninit : Nat → Int) (AMOUNT_TIME NUM_SERVERS : Int)
    (log_file_is_open : Bool) : Exit × List Record :=
  if !log_file_is_open then (Exit.returned 1, [])
  else
    match LoadBalancer.new rand uninit NUM_SERVERS AMOUNT_TIME [Record.started] with
    | Except.error e => (Exit.terminated e, [Record.started])
    | Except.ok load_balancer =>
      let load_balancer := LoadBalancer.handle_requests rand uninit load_balancer
      (Exit.returned 0, load_balancer.destructor.output_stream)

/-- Number of busy workers of a pool. -/
def busy_count (servers : List WebServer) : Nat :=
  servers.countP (fun s => !s.is_idle)

/-- The identifiers of a pool, in pool order, are `1, 2, ..., size`. -/
def sequential_ids (servers : List WebServer) : Prop :=
  servers.map (fun s => s.num_webserver) =
    (List.range servers.length).map (fun j : Nat => (j : Int) + 1)

instance (servers : List WebServer) : Decidable (sequential_ids servers) := by
  unfold sequential_ids
  infer_instance

/-- A pool of one idle worker with nothing pending. -/
def single_idle (lb : LoadBalancer) : Prop :=
  lb.servers.length = 1 ∧ (∀ s ∈ lb.servers, s.is_idle = true) ∧ lb.request_queue = [] ∧
  lb.num_servers = 1

instance (lb : LoadBalancer) : Decidable (single_idle lb) := by
  unfold single_idle
  infer_instance

/-- The counter of a busy worker is in range: `0 ≤ processed_time < current.time`. -/
def counter_in_range (s : WebServer) : Prop :=
  s.is_idle = false → 0 ≤ s.processed_time ∧ s.processed_time < s.current.time

instance (s : WebServer) : Decidable (counter_in_range s) := by
  unfold counter_in_range
  infer_instance

/-- State property kept by every cycle of a constructor-built run: the duration bounds are the
defaults, every pending request lasts at least one cycle, and the counter of every busy worker
is in range. -/
def busy_invariant (lb : LoadBalancer) : Prop :=
  lb.min_request_time = 5 ∧ lb.max_request_time = 45 ∧
  (∀ r ∈ lb.request_queue, 1 ≤ r.time) ∧
  (∀ s ∈ lb.servers, counter_in_range s)

instance (lb : LoadBalancer) : Decidable (busy_invariant lb) := by
  unfold busy_invariant
  infer_instance

/-! ## Concrete states used to exercise the theorems -/

/-- An idle worker that has completed a request of duration 5. -/
def C4_worker : WebServer :=
  { num_webserver := 1
    current := { ip_in := "10.0.0.1", ip_out := "10.0.0.2", time := 5 }
    is_idle := true
    processed_time := 0 }

/-- A state at the scaling pass: three workers, one pending request (load 1/3). -/
def C5_state : LoadBalancer :=
  { num_servers := 3
    time_to_run := 10
    time_elapsed := 4
    min_request_time := 5
    max_request_time := 45
    output_stream := []
    request_queue := [{ ip_in := "1.2.3.4", ip_out := "5.6.7.8", time := 6 }]
    servers :=
      [{ num_webserver := 1, current := { ip_in := "", ip_out := "", time := 7 },
         is_idle := false, processed_time := 2 },
       { num_webserver := 2, current := { ip_in := "", ip_out := "", time := 5 },
         is_idle := true, processed_time := 0 },
       { num_webserver := 3, current := { ip_in := "", ip_out := "", time := 9 },
         is_idle := false, processed_time := 4 }]
    rand_calls := 0
    allocs := 3 }

/-- A state at the start of an assignment pass: a busy worker, three idle workers and two
pending requests. -/
def C7_state : LoadBalancer :=
  { num_servers := 4
    time_to_run := 10
    time_elapsed := 2
    min_request_time := 5
    max_request_time := 45
    output_stream := []
    request_queue :=
      [{ ip_in := "1.1.1.1", ip_out := "2.2.2.2", time := 6 },
       { ip_in := "3.3.3.3", ip_out := "4.4.4.4", time := 8 }]
    servers :=
      [{ num_webserver := 1, current := { ip_in := "9.9.9.9", ip_out := "8.8.8.8", time := 7 },
         is_idle := false, processed_time := 2 },
       { num_webserver := 2, current := { ip_in := "", ip_out := "", time := 5 },
         is_idle := true, processed_time := 0 },
       { num_webserver := 3, current := { ip_in := "", ip_out := "", time := 5 },
         is_idle := true, processed_time := 0 },
       { num_webserver := 4, current := { ip_in := "", ip_out := "", time := 5 },
         is_idle := true, processed_time := 0 }]
    rand_calls := 0
    allocs := 4 }

/-- A state at the scaling pass: two workers and four pending requests (load 2). -/
def C9_state : LoadBalancer :=
  { num_servers := 2
    time_to_run := 10
    time_elapsed := 1
    min_request_time := 5
    max_request_time := 45
    output_stream := []
    request_queue :=
      [{ ip_in := "1.1.1.1", ip_out := "2.2.2.2", time := 6 },
       { ip_in := "3.3.3.3", ip_out := "4.4.4.4", time := 8 },
       { ip_in := "5.5.5.5", ip_out := "6.6.6.6", time := 5 },
       { ip_in := "7.7.7.7", ip_out := "8.8.8.8", time := 9 }]
    servers :=
      [{ num_webserver := 1, current := { ip_in := "9.9.9.9", ip_out := "8.8.8.8", time := 7 },
         is_idle := false, processed_time := 1 },
       { num_webserver := 2, current := { ip_in := "9.9.9.7", ip_out := "8.8.8.6", time := 5 },
         is_idle := false, processed_time := 1 }]
    rand_calls := 0
    allocs := 2 }

/-- A state at the scaling pass: three workers, the last one busy, and one pending request. -/
def C10_state : LoadBalancer :=
  { num_servers := 3
    time_to_run := 10
    time_elapsed := 4
    min_request_time := 5
    max_request_time := 45
    output_stream := []
    request_queue := [{ ip_in := "1.2.3.4", ip_out := "5.6.7.8", time := 6 }]
    servers :=
      [{ num_webserver := 1, current := { ip_in := "1.1.1.1", ip_out := "2.2.2.2", time := 7 },
         is_idle := false, processed_time := 2 },
       { num_webserver := 2, current := { ip_in := "3.3.3.3", ip_out := "4.4.4.4", time := 5 },
         is_idle := true, processed_time := 0 },
       { num_webserver := 3, current := { ip_in := "5.5.5.5", ip_out := "6.6.6.6", time := 9 },
         is_idle := false, processed_time := 4 }]
    rand_calls := 0
    allocs := 3 }

/-- A state with the default duration bounds in which 17 draws have been consumed. -/
def C13_state : LoadBalancer :=
  { num_servers := 1
    time_to_run := 3
    time_elapsed := 1
    min_request_time := 5
    max_request_time := 45
    output_stream := []
    request_queue := []
    servers :=
      [{ num_webserver := 1, current := { ip_in := "1.2.3.4", ip_out := "5.6.7.8", time := 9 },
         is_idle := false, processed_time := 1 }]
    rand_calls := 17
    allocs := 1 }

/-- A state at the start of a cycle with one idle worker and nothing pending. -/
def C15_state : LoadBalancer :=
  { num_servers := 1
    time_to_run := 3
    time_elapsed := 0
    min_request_time := 5
    max_request_time := 45
    output_stream := []
    request_queue := []
    servers :=
      [{ num_webserver := 1, current := { ip_in := "", ip_out := "", time := 0 },
         is_idle := true, processed_time := 0 }]
    rand_calls := 0
    allocs := 1 }

/-- A state at the start of a cycle with two busy workers and three pending requests. -/
def C16_state : LoadBalancer :=
  { num_servers := 2
    time_to_run := 10
    time_elapsed := 3
    min_request_time := 5
    max_request_time := 45
    output_stream := []
    request_queue :=
      [{ ip_in := "1.1.1.1", ip_out := "2.2.2.2", time := 6 },
       { ip_in := "3.3.3.3", ip_out := "4.4.4.4", time := 8 },
       { ip_in := "5.5.5.5", ip_out := "6.6.6.6", time := 5 }]
    servers :=
      [{ num_webserver := 1, current := { ip_in := "9.9.9.9", ip_out := "8.8.8.8", time := 7 },
         is_idle := false, processed_time := 3 },
       { num_webserver := 2, current := { ip_in := "9.9.9.7", ip_out := "8.8.8.6", time := 9 },
         is_idle := false, processed_time := 2 }]
    rand_calls := 0
    allocs := 2 }

end LB

namespace LB

open LoadBalancer

/-! ## Frame lemmas: what each pass leaves alone -/

section Frame

variable (rand : Nat → Nat) (uninit : Nat → Int)

@[simp] theorem generate_random_request_time_elapsed (lb : LoadBalancer) :
    (generate_random_request rand lb).2.time_elapsed = lb.time_elapsed := rfl

@[simp] theorem generate_random_request_time_to_run (lb : LoadBalancer) :
    (generate_random_request rand lb).2.time_to_run = lb.time_to_run := rfl

@[simp] theorem generate_random_request_servers (lb : LoadBalancer) :
    (generate_random_request rand lb).2.servers = lb.servers := rfl

@[simp] theorem generate_random_request_num_servers (lb : LoadBalancer) :
    (generate_random_request rand lb).2.num_servers = lb.num_servers := rfl

@[simp] theorem generate_random_request_queue (lb : LoadBalancer) :
    (generate_random_request rand lb).2.request_queue = lb.request_queue := rfl

theorem fill_queue_frame (n : Nat) (lb : LoadBalancer) :
    (fill_queue rand n lb).time_elapsed = lb.time_elapsed ∧
    (fill_queue rand n lb).time_to_run = lb.time_to_run ∧
    (fill_queue rand n lb).servers = lb.servers ∧
    (fill_queue rand n lb).num_servers = lb.num_servers ∧
    (fill_queue rand n lb).allocs = lb.allocs ∧
    (fill_queue rand n lb).output_stream = lb.output_stream := by
  induction n generalizing lb with
  | zero => simp [fill_queue]
  | succ n ih =>
    have h := ih { (generate_random_request rand lb).2 with
      request_queue := (generate_random_request rand lb).2.request_queue ++
        [(generate_random_request rand lb).1] }
    simpa [fill_queue, generate_random_request, generate_random_ip] using h

theorem fill_servers_frame (n : Nat) (i : Int) (lb : LoadBalancer) :
    (fill_servers uninit n i lb).time_elapsed = lb.time_elapsed ∧
    (fill_servers uninit n i lb).time_to_run = lb.time_to_run ∧
    (fill_servers uninit n i lb).num_servers = lb.num_servers ∧
    (fill_servers uninit n i lb).request_queue = lb.request_queue ∧
    (fill_servers uninit n i lb).servers.length = lb.servers.length + n := by
  induction n generalizing i lb with
  | zero => simp [fill_servers]
  | succ n ih =>
    have h := ih (i + 1) { lb with
      servers := lb.servers ++ [(WebServer.new (i + 1) (uninit lb.allocs)).1]
      output_stream := lb.output_stream ++ (WebServer.new (i + 1) (uninit lb.allocs)).2
      allocs := lb.allocs + 1 }
    simp only [fill_servers]
    refine ⟨h.1, h.2.1, h.2.2.1, h.2.2.2.1, ?_⟩
    rw [h.2.2.2.2]
    simp only [List.length_append, List.length_singleton]
    omega

theorem constructed_time_elapsed (N T : Int) (out : List Record) :
    (LoadBalancer.constructed rand uninit N T out).time_elapsed = 0 := by
  simp [LoadBalancer.constructed, LoadBalancer.members, (fill_servers_frame uninit _ _ _).1, (fill_queue_frame rand _ _).1]

theorem constructed_time_to_run (N T : Int) (out : List Record) :
    (LoadBalancer.constructed rand uninit N T out).time_to_run = T := by
  simp [LoadBalancer.constructed, LoadBalancer.members, (fill_servers_frame uninit _ _ _).2.1, (fill_queue_frame rand _ _).2.1]

theorem constructed_servers_length (N T : Int) (out : List Record) :
    (LoadBalancer.constructed rand uninit N T out).servers.length = N.toNat := by
  simp [LoadBalancer.constructed, LoadBalancer.members, (fill_servers_frame uninit _ _ _).2.2.2.2,
    (fill_queue_frame rand _ _).2.2.1]

theorem wrap_int_eq (x : Int) (h1 : -2147483648 ≤ x) (h2 : x ≤ 2147483647) :
    wrap_int x = x := by
  unfold wrap_int
  omega

/-- With a non-negative worker count `reserve` does not throw and the constructor returns. -/
theorem new_of_nonneg (N T : Int) (out : List Record) (hN : 0 ≤ N) :
    LoadBalancer.new rand uninit N T out =
      Except.ok (LoadBalancer.constructed rand uninit N T out) := by
  have h : ¬ N < 0 := by omega
  simp [LoadBalancer.new, LoadBalancer.constructed, reserve, h]

/-- With a negative worker count `reserve` throws and the constructor does not return. -/
theorem new_of_neg (N T : Int) (out : List Record) (hN : N < 0) :
    LoadBalancer.new rand uninit N T out = Except.error Exception.length_error := by
  simp [LoadBalancer.new, reserve, hN]

theorem assign_loop_length (servers : List WebServer) (st : Assign) :
    (assign_loop servers st).1.length = servers.length := by
  induction servers generalizing st with
  | nil => simp [assign_loop]
  | cons s rest ih =>
    cases hs : s.is_idle <;> cases hq : st.request_queue <;> simp [assign_loop, hs, hq, ih]

theorem pass_time_loop_length (servers : List WebServer) :
    (pass_time_loop servers).1.length = servers.length := by
  induction servers with
  | nil => simp [pass_time_loop]
  | cons s rest ih => simp [pass_time_loop, ih]

@[simp] theorem assignment_pass_servers_length (lb : LoadBalancer) :
    (assignment_pass lb).servers.length = lb.servers.length := by
  simp [assignment_pass, assign_loop_length]

@[simp] theorem assignment_pass_time_elapsed (lb : LoadBalancer) :
    (assignment_pass lb).time_elapsed = lb.time_elapsed := rfl

@[simp] theorem assignment_pass_time_to_run (lb : LoadBalancer) :
    (assignment_pass lb).time_to_run = lb.time_to_run := rfl

@[simp] theorem assignment_pass_num_servers (lb : LoadBalancer) :
    (assignment_pass lb).num_servers = lb.num_servers := rfl

@[simp] theorem time_advance_pass_servers_length (lb : LoadBalancer) :
    (time_advance_pass lb).servers.length = lb.servers.length := by
  simp [time_advance_pass, pass_time_loop_length]

@[simp] theorem time_advance_pass_time_elapsed (lb : LoadBalancer) :
    (time_advance_pass lb).time_elapsed = lb.time_elapsed := rfl

@[simp] theorem time_advance_pass_time_to_run (lb : LoadBalancer) :
    (time_advance_pass lb).time_to_run = lb.time_to_run := rfl

@[simp] theorem time_advance_pass_num_servers (lb : LoadBalancer) :
    (time_advance_pass lb).num_servers = lb.num_servers := rfl

@[simp] theorem time_advance_pass_queue (lb : LoadBalancer) :
    (time_advance_pass lb).request_queue = lb.request_queue := rfl

@[simp] theorem scaling_pass_time_elapsed (lb : LoadBalancer) :
    (scaling_pass uninit lb).time_elapsed = lb.time_elapsed := by
  unfold scaling_pass
  split
  · rfl
  · split
    · split <;> rfl
    · rfl

@[simp] theorem scaling_pass_time_to_run (lb : LoadBalancer) :
    (scaling_pass uninit lb).time_to_run = lb.time_to_run := by
  unfold scaling_pass
  split
  · rfl
  · split
    · split <;> rfl
    · rfl

@[simp] theorem scaling_pass_queue (lb : LoadBalancer) :
    (scaling_pass uninit lb).request_queue = lb.request_queue := by
  unfold scaling_pass
  split
  · rfl
  · split
    · split <;> rfl
    · rfl

@[simp] theorem arrival_time_elapsed (lb : LoadBalancer) :
    (arrival rand lb).time_elapsed = lb.time_elapsed := by
  unfold arrival
  split <;> rfl

@[simp] theorem arrival_time_to_run (lb : LoadBalancer) :
    (arrival rand lb).time_to_run = lb.time_to_run := by
  unfold arrival
  split <;> rfl

@[simp] theorem arrival_servers (lb : LoadBalancer) :
    (arrival rand lb).servers = lb.servers := by
  unfold arrival
  split <;> rfl

@[simp] theorem arrival_num_servers (lb : LoadBalancer) :
    (arrival rand lb).num_servers = lb.num_servers := by
  unfold arrival
  split <;> rfl

theorem cycle_time_elapsed (lb : LoadBalancer) :
    (cycle rand uninit lb).time_elapsed = lb.time_elapsed + 1 := by
  simp [cycle]

theorem cycle_time_to_run (lb : LoadBalancer) :
    (cycle rand uninit lb).time_to_run = lb.time_to_run := by
  simp [cycle]

theorem cycle_servers (lb : LoadBalancer) :
    (cycle rand uninit lb).servers =
      (scaling_pass uninit (time_advance_pass (assignment_pass lb))).servers := by
  simp [cycle]

theorem cycles_time_elapsed (k : Nat) (lb : LoadBalancer) :
    (cycles rand uninit k lb).time_elapsed = lb.time_elapsed + k := by
  induction k generalizing lb with
  | zero => simp [cycles]
  | succ k ih =>
    simp only [cycles, ih, cycle_time_elapsed]
    push_cast
    ring

theorem cycles_time_to_run (k : Nat) (lb : LoadBalancer) :
    (cycles rand uninit k lb).time_to_run = lb.time_to_run := by
  induction k generalizing lb with
  | zero => simp [cycles]
  | succ k ih => simp only [cycles, ih, cycle_time_to_run]

theorem cycles_succ (k : Nat) (lb : LoadBalancer) :
    cycles rand uninit (k + 1) lb = cycle rand uninit (cycles rand uninit k lb) := by
  induction k generalizing lb with
  | zero => simp [cycles]
  | succ k ih =>
    rw [cycles, ih]
    rfl

theorem cycles_one (lb : LoadBalancer) :
    cycles rand uninit 1 lb = cycle rand uninit lb := rfl

end Frame

/-! ## The cycle loop -/

section Loop

variable (rand : Nat → Nat) (uninit : Nat → Int)

theorem is_finished_iff (lb : LoadBalancer) :
    lb.is_finished = true ↔ lb.time_elapsed ≥ lb.time_to_run := by
  simp [is_finished]

theorem while_loop_eq_cycles (fuel : Nat) (lb : LoadBalancer)
    (h : (lb.time_to_run - lb.time_elapsed).toNat = fuel) :
    while_loop rand uninit fuel lb = cycles rand uninit fuel lb := by
  induction fuel generalizing lb with
  | zero => rfl
  | succ fuel ih =>
    have hnot : lb.is_finished = false := by
      simp only [is_finished, decide_eq_false_iff_not, ge_iff_le, not_le]
      omega
    simp only [while_loop, hnot, cycles]
    apply ih
    rw [cycle_time_elapsed, cycle_time_to_run]
    omega

/-- The defining equation of the `while` loop: nothing is done when `is_finished()` holds,
otherwise the body runs once and the loop is entered again. -/
theorem handle_requests_unfold (lb : LoadBalancer) :
    handle_requests rand uninit lb =
      if lb.is_finished then lb
      else handle_requests rand uninit (cycle rand uninit lb) := by
  unfold handle_requests
  by_cases hfin : lb.is_finished = true
  · have h0 : (lb.time_to_run - lb.time_elapsed).toNat = 0 := by
      have := (is_finished_iff lb).1 hfin
      omega
    simp [hfin, h0, while_loop]
  · have hlt : lb.time_elapsed < lb.time_to_run := by
      have := (is_finished_iff lb).not.1 hfin
      omega
    obtain ⟨k, hk⟩ : ∃ k, (lb.time_to_run - lb.time_elapsed).toNat = k + 1 :=
      ⟨(lb.time_to_run - lb.time_elapsed).toNat - 1, by omega⟩
    have hk2 : ((cycle rand uninit lb).time_to_run -
        (cycle rand uninit lb).time_elapsed).toNat = k := by
      rw [cycle_time_elapsed, cycle_time_to_run]
      omega
    simp only [hk, hk2, while_loop, hfin]

theorem handle_requests_eq_cycles (lb : LoadBalancer) :
    handle_requests rand uninit lb =
      cycles rand uninit (lb.time_to_run - lb.time_elapsed).toNat lb :=
  while_loop_eq_cycles rand uninit _ lb rfl

end Loop

/-! ## Pool size -/

section Pool

variable (rand : Nat → Nat) (uninit : Nat → Int)

theorem scaling_pass_add (lb : LoadBalancer)
    (h : (queue_per_server lb).gt ADD_THRESHOLD = true) :
    scaling_pass uninit lb =
      { lb with
        output_stream := lb.output_stream ++ [Record.adding_server (lb.servers.length + 1)] ++
          (WebServer.new ((lb.servers.length + 1 : Nat) : Int) (uninit lb.allocs)).2
        servers := lb.servers ++
          [(WebServer.new ((lb.servers.length + 1 : Nat) : Int) (uninit lb.allocs)).1]
        allocs := lb.allocs + 1
        num_servers := lb.num_servers + 1 } := by
  simp [scaling_pass, h]

theorem scaling_pass_remove (lb : LoadBalancer)
    (h1 : (queue_per_server lb).gt ADD_THRESHOLD = false)
    (h2 : (queue_per_server lb).lt REMOVE_THRESHOLD = true)
    (h3 : 1 < lb.servers.length) :
    ∃ last, lb.servers = lb.servers.dropLast ++ [last] ∧
      scaling_pass uninit lb =
        { lb with
          output_stream := lb.output_stream ++ [Record.removing_server lb.servers.length] ++
            last.destructor
          servers := lb.servers.dropLast
          num_servers := lb.num_servers - 1 } := by
  have hne : lb.servers ≠ [] := by
    intro h
    rw [h] at h3
    simp at h3
  refine ⟨lb.servers.getLast hne, (List.dropLast_append_getLast hne).symm, ?_⟩
  simp [scaling_pass, h1, h2, h3, List.getLast?_eq_getLast _ hne]

theorem scaling_pass_keep (lb : LoadBalancer)
    (h1 : (queue_per_server lb).gt ADD_THRESHOLD = false)
    (h2 : ¬ ((queue_per_server lb).lt REMOVE_THRESHOLD = true ∧ 1 < lb.servers.length)) :
    scaling_pass uninit lb = lb := by
  unfold scaling_pass
  rw [if_neg (by simp [h1]), if_neg]
  simpa using h2

theorem scaling_pass_length_pos (lb : LoadBalancer) (h : 1 ≤ lb.servers.length) :
    1 ≤ (scaling_pass uninit lb).servers.length := by
  cases h1 : (queue_per_server lb).gt ADD_THRESHOLD
  · by_cases h2 : (queue_per_server lb).lt REMOVE_THRESHOLD = true ∧ 1 < lb.servers.length
    · obtain ⟨last, _, hsc⟩ := scaling_pass_remove uninit lb h1 h2.1 h2.2
      rw [hsc]
      simp only [List.length_dropLast]
      omega
    · rw [scaling_pass_keep uninit lb h1 h2]
      exact h
  · rw [scaling_pass_add uninit lb h1]
    simp

theorem cycle_length_pos (lb : LoadBalancer) (h : 1 ≤ lb.servers.length) :
    1 ≤ (cycle rand uninit lb).servers.length := by
  rw [cycle_servers]
  apply scaling_pass_length_pos
  simpa using h

theorem cycles_length_pos (k : Nat) (lb : LoadBalancer) (h : 1 ≤ lb.servers.length) :
    1 ≤ (cycles rand uninit k lb).servers.length := by
  induction k generalizing lb with
  | zero => exact h
  | succ k ih => exact ih _ (cycle_length_pos rand uninit lb h)

end Pool

/-! ## The scaling thresholds -/

section Scaling

variable (uninit : Nat → Int)

theorem queue_per_server_eq (lb : LoadBalancer) (hn : 1 ≤ lb.servers.length)
    (hc : lb.num_servers = lb.servers.length) :
    queue_per_server lb =
      Double.fin ((lb.request_queue.length : ℚ) / (lb.servers.length : ℚ)) := by
  have h0 : (lb.servers.length : Int) ≠ 0 := by omega
  simp [queue_per_server, Double.div, hc, h0]

theorem gt_add_threshold_iff (lb : LoadBalancer) (hn : 1 ≤ lb.servers.length)
    (hc : lb.num_servers = lb.servers.length) :
    (queue_per_server lb).gt ADD_THRESHOLD = true ↔
      (lb.request_queue.length : ℚ) / (lb.servers.length : ℚ) > 9 / 5 := by
  simp [queue_per_server_eq lb hn hc, Double.gt, ADD_THRESHOLD]

theorem lt_remove_threshold_iff (lb : LoadBalancer) (hn : 1 ≤ lb.servers.length)
    (hc : lb.num_servers = lb.servers.length) :
    (queue_per_server lb).lt REMOVE_THRESHOLD = true ↔
      (lb.request_queue.length : ℚ) / (lb.servers.length : ℚ) < 1 := by
  simp [queue_per_server_eq lb hn hc, Double.lt, REMOVE_THRESHOLD]

theorem scaling_pass_length_bounds (lb : LoadBalancer) :
    (scaling_pass uninit lb).servers.length ≤ lb.servers.length + 1 ∧
    lb.servers.length ≤ (scaling_pass uninit lb).servers.length + 1 := by
  cases h1 : (queue_per_server lb).gt ADD_THRESHOLD
  · by_cases h2 : (queue_per_server lb).lt REMOVE_THRESHOLD = true ∧ 1 < lb.servers.length
    · obtain ⟨last, _, hsc⟩ := scaling_pass_remove uninit lb h1 h2.1 h2.2
      rw [hsc]
      simp only [List.length_dropLast]
      omega
    · rw [scaling_pass_keep uninit lb h1 h2]
      omega
  · rw [scaling_pass_add uninit lb h1]
    simp only [List.length_append, List.length_singleton]
    omega

end Scaling

/-! ## The assignment pass -/

section Assignment

theorem idle_count_nil : idle_count [] = 0 := rfl

theorem idle_count_cons (s : WebServer) (rest : List WebServer) :
    idle_count (s :: rest) = idle_count rest + (if s.is_idle = true then 1 else 0) := by
  simp [idle_count, List.countP_cons]

theorem dequeued_append (a b : List Record) :
    dequeued (a ++ b) = dequeued a ++ dequeued b := by
  induction a with
  | nil => rfl
  | cons x a ih => cases x <;> simp [dequeued, ih]

theorem assign_loop_queue (servers : List WebServer) (st : Assign) :
    (assign_loop servers st).2.request_queue =
      st.request_queue.drop (min (idle_count servers) st.request_queue.length) := by
  induction servers generalizing st with
  | nil => simp [assign_loop, idle_count_nil]
  | cons s rest ih =>
    cases hs : s.is_idle <;> cases hq : st.request_queue <;>
      simp [assign_loop, hs, hq, ih, idle_count_cons, Nat.add_min_add_right]

theorem assign_loop_dequeued (servers : List WebServer) (st : Assign) :
    dequeued (assign_loop servers st).2.output =
      dequeued st.output ++
        st.request_queue.take (min (idle_count servers) st.request_queue.length) := by
  induction servers generalizing st with
  | nil => simp [assign_loop, idle_count_nil]
  | cons s rest ih =>
    cases hs : s.is_idle <;> cases hq : st.request_queue <;>
      simp [assign_loop, hs, hq, ih, idle_count_cons, Nat.add_min_add_right,
        WebServer.handle_request, dequeued_append, dequeued]

theorem assign_loop_idle_count (servers : List WebServer) (st : Assign) :
    idle_count (assign_loop servers st).1 =
      idle_count servers - min (idle_count servers) st.request_queue.length := by
  induction servers generalizing st with
  | nil => simp [assign_loop, idle_count_nil]
  | cons s rest ih =>
    cases hs : s.is_idle <;> cases hq : st.request_queue <;>
      simp [assign_loop, hs, hq, ih, idle_count_cons, Nat.add_min_add_right,
        WebServer.handle_request]

/-- What the assignment loop does to the worker at position `p`: a busy worker is kept; an idle
worker takes the request whose queue position is the number of idle workers before it, when
there is one. -/
theorem assign_loop_getElem? (servers : List WebServer) (st : Assign) (p : Nat) :
    (assign_loop servers st).1[p]? =
      (servers[p]?).map (fun s =>
        if s.is_idle = true then
          match st.request_queue[idle_count (servers.take p)]? with
          | some req => (s.handle_request req).1
          | none => s
        else s) := by
  induction servers generalizing st p with
  | nil => simp [assign_loop]
  | cons s rest ih =>
    cases p with
    | zero =>
      cases hs : s.is_idle <;> cases hq : st.request_queue <;>
        simp [assign_loop, hs, hq, idle_count_nil]
    | succ p =>
      cases hs : s.is_idle <;> cases hq : st.request_queue <;>
        simp [assign_loop, hs, hq, ih, idle_count_cons]

theorem pass_time_eq (s : WebServer) :
    s.pass_time =
      if s.processed_time + 1 ≥ s.current.time then
        ({ s with is_idle := true, processed_time := 0 },
         [Record.server_complete s.num_webserver])
      else ({ s with processed_time := s.processed_time + 1 }, []) := rfl

theorem pass_time_loop_servers (servers : List WebServer) :
    (pass_time_loop servers).1 = servers.map (fun s => s.pass_time.1) := by
  induction servers with
  | nil => rfl
  | cons s rest ih => simp [pass_time_loop, ih]

theorem dequeued_pass_time_loop (servers : List WebServer) :
    dequeued (pass_time_loop servers).2 = [] := by
  induction servers with
  | nil => rfl
  | cons s rest ih =>
    simp only [pass_time_loop, dequeued_append, ih, List.append_nil]
    rw [pass_time_eq]
    split <;> rfl

theorem assignment_pass_queue (lb : LoadBalancer) :
    (assignment_pass lb).request_queue =
      lb.request_queue.drop (min (idle_count lb.servers) lb.request_queue.length) := by
  simp [assignment_pass, assign_loop_queue]

theorem assignment_pass_dequeued (lb : LoadBalancer) :
    dequeued (assignment_pass lb).output_stream =
      dequeued lb.output_stream ++
        lb.request_queue.take (min (idle_count lb.servers) lb.request_queue.length) := by
  unfold assignment_pass
  simp only [dequeued_append]
  split <;> simp [dequeued_append, assign_loop_dequeued, dequeued]

theorem assignment_pass_getElem? (lb : LoadBalancer) (p : Nat) :
    (assignment_pass lb).servers[p]? =
      (lb.servers[p]?).map (fun s =>
        if s.is_idle = true then
          match lb.request_queue[idle_count (lb.servers.take p)]? with
          | some req => (s.handle_request req).1
          | none => s
        else s) := by
  simp [assignment_pass, assign_loop_getElem?]

theorem arrival_queue (rand : Nat → Nat) (lb : LoadBalancer) :
    ∃ extra : List Request, extra.length ≤ 1 ∧
      (arrival rand lb).request_queue = lb.request_queue ++ extra := by
  unfold arrival
  split
  · exact ⟨[(generate_random_request rand { lb with rand_calls := lb.rand_calls + 1 }).1],
      by simp, rfl⟩
  · exact ⟨[], by simp, by simp⟩

theorem arrival_output (rand : Nat → Nat) (lb : LoadBalancer) :
    (arrival rand lb).output_stream = lb.output_stream := by
  unfold arrival
  split <;> rfl

theorem scaling_pass_dequeued (uninit : Nat → Int) (lb : LoadBalancer) :
    dequeued (scaling_pass uninit lb).output_stream = dequeued lb.output_stream := by
  unfold scaling_pass
  split
  · simp [dequeued_append, dequeued, WebServer.new]
  · split
    · split
      · simp [dequeued_append, dequeued, WebServer.destructor]
      · rfl
    · rfl

theorem time_advance_pass_dequeued (lb : LoadBalancer) :
    dequeued (time_advance_pass lb).output_stream = dequeued lb.output_stream := by
  simp [time_advance_pass, dequeued_append, dequeued_pass_time_loop]

theorem cycle_queue (rand : Nat → Nat) (uninit : Nat → Int) (lb : LoadBalancer) :
    ∃ extra : List Request, extra.length ≤ 1 ∧
      (cycle rand uninit lb).request_queue =
        lb.request_queue.drop (min (idle_count lb.servers) lb.request_queue.length) ++
          extra := by
  obtain ⟨extra, hlen, h⟩ := arrival_queue rand
    { scaling_pass uninit (time_advance_pass (assignment_pass lb)) with
      time_elapsed :=
        (scaling_pass uninit (time_advance_pass (assignment_pass lb))).time_elapsed + 1 }
  refine ⟨extra, hlen, ?_⟩
  have hc : cycle rand uninit lb = arrival rand
      { scaling_pass uninit (time_advance_pass (assignment_pass lb)) with
        time_elapsed :=
          (scaling_pass uninit (time_advance_pass (assignment_pass lb))).time_elapsed + 1 } :=
    rfl
  rw [hc, h]
  show (scaling_pass uninit (time_advance_pass (assignment_pass lb))).request_queue ++ extra = _
  rw [scaling_pass_queue, time_advance_pass_queue, assignment_pass_queue]

theorem cycle_dequeued (rand : Nat → Nat) (uninit : Nat → Int) (lb : LoadBalancer) :
    dequeued (cycle rand uninit lb).output_stream =
      dequeued lb.output_stream ++
        lb.request_queue.take (min (idle_count lb.servers) lb.request_queue.length) := by
  have hc : cycle rand uninit lb = arrival rand
      { scaling_pass uninit (time_advance_pass (assignment_pass lb)) with
        time_elapsed :=
          (scaling_pass uninit (time_advance_pass (assignment_pass lb))).time_elapsed + 1 } :=
    rfl
  rw [hc, arrival_output]
  show dequeued (scaling_pass uninit (time_advance_pass (assignment_pass lb))).output_stream = _
  rw [scaling_pass_dequeued, time_advance_pass_dequeued, assignment_pass_dequeued]

/-- Over any number of cycles the queue is a suffix of "initial queue followed by the arrivals",
and the requests handed to servers, in dequeue order, are the matching prefix. -/
theorem cycles_fifo (rand : Nat → Nat) (uninit : Nat → Int) (k : Nat) (lb : LoadBalancer) :
    ∃ (arrivals : List Request) (K : Nat),
      K ≤ (lb.request_queue ++ arrivals).length ∧
      (cycles rand uninit k lb).request_queue = (lb.request_queue ++ arrivals).drop K ∧
      dequeued (cycles rand uninit k lb).output_stream =
        dequeued lb.output_stream ++ (lb.request_queue ++ arrivals).take K := by
  induction k with
  | zero => exact ⟨[], 0, by simp, by simp [cycles], by simp [cycles]⟩
  | succ k ih =>
    obtain ⟨arrivals, K, hK, hq, hd⟩ := ih
    obtain ⟨extra, _, hq1⟩ := cycle_queue rand uninit (cycles rand uninit k lb)
    have hd1 := cycle_dequeued rand uninit (cycles rand uninit k lb)
    generalize hm : min (idle_count (cycles rand uninit k lb).servers)
      (cycles rand uninit k lb).request_queue.length = m at hq1 hd1
    have hmle : m ≤ (lb.request_queue ++ arrivals).length - K := by
      have h1 : m ≤ (cycles rand uninit k lb).request_queue.length := by
        rw [← hm]
        exact Nat.min_le_right _ _
      rw [hq, List.length_drop] at h1
      exact h1
    have hKm : K + m ≤ (lb.request_queue ++ arrivals).length := by omega
    refine ⟨arrivals ++ extra, K + m, ?_, ?_, ?_⟩
    · rw [← List.append_assoc, List.length_append]
      omega
    · rw [cycles_succ, hq1, hq, List.drop_drop, ← List.append_assoc,
        List.drop_append_of_le_length hKm, Nat.add_comm K m]
    · rw [cycles_succ, hd1, hd, hq, ← List.append_assoc, List.take_append_of_le_length hKm,
        List.take_add, List.append_assoc]

end Assignment

/-! ## The life of one request on a worker -/

section Worker

theorem pass_times_succ (k : Nat) (s : WebServer) :
    pass_times (k + 1) s = (pass_times k s).pass_time.1 := by
  induction k generalizing s with
  | zero => rfl
  | succ k ih =>
    rw [pass_times, ih]
    rfl

theorem pass_times_busy (k : Nat) (s : WebServer)
    (h : s.processed_time + k < s.current.time) :
    pass_times k s = { s with processed_time := s.processed_time + k } := by
  induction k with
  | zero => simp [pass_times]
  | succ k ih =>
    have hk : s.processed_time + k < s.current.time := by omega
    have hnot : ¬ (s.processed_time + k + 1 ≥ s.current.time) := by
      push_cast at h
      omega
    rw [pass_times_succ, ih hk, pass_time_eq]
    simp only [hnot, if_false]
    push_cast
    rw [add_assoc]

theorem pass_times_complete (k : Nat) (s : WebServer)
    (h : s.processed_time + (k + 1 : Nat) = s.current.time) :
    pass_times (k + 1) s = { s with is_idle := true, processed_time := 0 } := by
  have hk : s.processed_time + k < s.current.time := by
    push_cast at h
    omega
  have hge : s.processed_time + k + 1 ≥ s.current.time := by
    push_cast at h
    omega
  rw [pass_times_succ, pass_times_busy k s hk, pass_time_eq]
  simp only [hge, if_true]

end Worker

/-! ## The counter of a busy worker -/

section BusyCounter

variable (rand : Nat → Nat) (uninit : Nat → Int)

theorem generate_random_request_time (lb : LoadBalancer)
    (hmin : lb.min_request_time = 5) (hmax : lb.max_request_time = 45) :
    5 ≤ (generate_random_request rand lb).1.time ∧
    (generate_random_request rand lb).1.time ≤ 45 := by
  have h : (generate_random_request rand lb).1.time =
      lb.min_request_time + Int.tmod (rand (lb.rand_calls + 4 + 4) : Int)
        (lb.max_request_time - lb.min_request_time + 1) := rfl
  rw [h, hmin, hmax]
  have h0 : 0 ≤ Int.tmod (rand (lb.rand_calls + 4 + 4) : Int) (45 - 5 + 1) :=
    Int.tmod_nonneg _ (Int.ofNat_nonneg _)
  have h1 : Int.tmod (rand (lb.rand_calls + 4 + 4) : Int) (45 - 5 + 1) < 45 - 5 + 1 :=
    Int.tmod_lt_of_pos _ (by decide)
  omega

theorem fill_queue_durations (n : Nat) (lb : LoadBalancer)
    (hmin : lb.min_request_time = 5) (hmax : lb.max_request_time = 45)
    (hq : ∀ r ∈ lb.request_queue, 1 ≤ r.time) :
    (fill_queue rand n lb).min_request_time = 5 ∧
    (fill_queue rand n lb).max_request_time = 45 ∧
    ∀ r ∈ (fill_queue rand n lb).request_queue, 1 ≤ r.time := by
  induction n generalizing lb with
  | zero => exact ⟨hmin, hmax, hq⟩
  | succ n ih =>
    have ht := generate_random_request_time rand lb hmin hmax
    apply ih { (generate_random_request rand lb).2 with
      request_queue := (generate_random_request rand lb).2.request_queue ++
        [(generate_random_request rand lb).1] } hmin hmax
    intro r hr
    rcases List.mem_append.1 hr with h | h
    · exact hq r h
    · rw [List.mem_singleton.1 h]
      omega

theorem fill_servers_idle (n : Nat) (i : Int) (lb : LoadBalancer)
    (hs : ∀ s ∈ lb.servers, s.is_idle = true) :
    (fill_servers uninit n i lb).min_request_time = lb.min_request_time ∧
    (fill_servers uninit n i lb).max_request_time = lb.max_request_time ∧
    ∀ s ∈ (fill_servers uninit n i lb).servers, s.is_idle = true := by
  induction n generalizing i lb with
  | zero => exact ⟨rfl, rfl, hs⟩
  | succ n ih =>
    apply ih (i + 1) { lb with
      servers := lb.servers ++ [(WebServer.new (i + 1) (uninit lb.allocs)).1]
      output_stream := lb.output_stream ++ (WebServer.new (i + 1) (uninit lb.allocs)).2
      allocs := lb.allocs + 1 }
    intro s hmem
    rcases List.mem_append.1 hmem with h | h
    · exact hs s h
    · rw [List.mem_singleton.1 h]
      rfl

theorem busy_invariant_constructed (N T : Int) (out : List Record) :
    busy_invariant (LoadBalancer.constructed rand uninit N T out) := by
  have hq := fill_queue_durations rand (wrap_int (100 * N)).toNat
    (members N T out) rfl rfl (by simp [members])
  have hfq := fill_queue_frame rand (wrap_int (100 * N)).toNat
    (members N T out)
  have hs := fill_servers_idle uninit N.toNat 0 (fill_queue rand (wrap_int (100 * N)).toNat
    (members N T out)) (by rw [hfq.2.2.1]; simp [members])
  have hfs := fill_servers_frame uninit N.toNat 0 (fill_queue rand (wrap_int (100 * N)).toNat
    (members N T out))
  refine ⟨hs.1.trans hq.1, hs.2.1.trans hq.2.1, ?_, ?_⟩
  · intro r hr
    apply hq.2.2 r
    rw [← hfs.2.2.2.1]
    exact hr
  · intro s hmem hbusy
    have := hs.2.2 s hmem
    rw [this] at hbusy
    cases hbusy

theorem assign_loop_counter (servers : List WebServer) (st : Assign)
    (hq : ∀ r ∈ st.request_queue, 1 ≤ r.time)
    (hs : ∀ s ∈ servers, counter_in_range s) :
    ∀ s ∈ (assign_loop servers st).1, counter_in_range s := by
  induction servers generalizing st with
  | nil => simp [assign_loop]
  | cons w rest ih =>
    have hrest : ∀ s ∈ rest, counter_in_range s := fun s h => hs s (List.mem_cons_of_mem _ h)
    have hw : counter_in_range w := hs w (List.mem_cons_self _ _)
    cases hi : w.is_idle with
    | false =>
      have heq : (assign_loop (w :: rest) st).1 =
          w :: (assign_loop rest
            { st with num_idle_servers := st.num_idle_servers - 1 }).1 := by
        simp [assign_loop, hi]
      rw [heq]
      intro s hmem
      rcases List.mem_cons.1 hmem with h | h
      · rw [h]
        exact hw
      · exact ih { st with num_idle_servers := st.num_idle_servers - 1 } hq hrest s h
    | true =>
      cases hqq : st.request_queue with
      | nil =>
        have heq : (assign_loop (w :: rest) st).1 = w :: (assign_loop rest st).1 := by
          simp [assign_loop, hi, hqq]
        rw [heq]
        intro s hmem
        rcases List.mem_cons.1 hmem with h | h
        · rw [h]
          exact hw
        · exact ih _ hq hrest s h
      | cons req queue =>
        rw [hqq] at hq
        have heq : (assign_loop (w :: rest) st).1 =
            (w.handle_request req).1 :: (assign_loop rest
              { request_queue := queue
                num_idle_servers := st.num_idle_servers - 1
                has_processed_request := true
                output := st.output ++ (w.handle_request req).2 }).1 := by
          simp [assign_loop, hi, hqq]
        rw [heq]
        intro s hmem
        rcases List.mem_cons.1 hmem with h | h
        · rw [h]
          intro _
          have := hq req (List.mem_cons_self _ _)
          simp only [WebServer.handle_request]
          omega
        · exact ih _ (fun r hr => hq r (List.mem_cons_of_mem _ hr)) hrest s h

theorem pass_time_counter (s : WebServer) (h : counter_in_range s) :
    counter_in_range s.pass_time.1 := by
  rw [pass_time_eq]
  split
  · intro hbusy
    cases hbusy
  · intro hbusy
    have := h hbusy
    simp only at *
    omega

theorem busy_invariant_assignment_pass (lb : LoadBalancer) (h : busy_invariant lb) :
    busy_invariant (assignment_pass lb) := by
  obtain ⟨hmin, hmax, hq, hs⟩ := h
  refine ⟨hmin, hmax, ?_, assign_loop_counter _ _ hq hs⟩
  intro r hr
  rw [assignment_pass_queue] at hr
  exact hq r (List.mem_of_mem_drop hr)

theorem busy_invariant_time_advance_pass (lb : LoadBalancer) (h : busy_invariant lb) :
    busy_invariant (time_advance_pass lb) := by
  obtain ⟨hmin, hmax, hq, hs⟩ := h
  refine ⟨hmin, hmax, hq, ?_⟩
  intro s hmem
  simp only [time_advance_pass, pass_time_loop_servers, List.mem_map] at hmem
  obtain ⟨w, hw, rfl⟩ := hmem
  exact pass_time_counter w (hs w hw)

theorem busy_invariant_scaling_pass (lb : LoadBalancer) (h : busy_invariant lb) :
    busy_invariant (scaling_pass uninit lb) := by
  obtain ⟨hmin, hmax, hq, hs⟩ := h
  cases h1 : (queue_per_server lb).gt ADD_THRESHOLD
  · by_cases h2 : (queue_per_server lb).lt REMOVE_THRESHOLD = true ∧ 1 < lb.servers.length
    · obtain ⟨last, _, hsc⟩ := scaling_pass_remove uninit lb h1 h2.1 h2.2
      rw [hsc]
      exact ⟨hmin, hmax, hq, fun s hmem => hs s (List.mem_of_mem_dropLast hmem)⟩
    · rw [scaling_pass_keep uninit lb h1 h2]
      exact ⟨hmin, hmax, hq, hs⟩
  · rw [scaling_pass_add uninit lb h1]
    refine ⟨hmin, hmax, hq, ?_⟩
    intro s hmem
    rcases List.mem_append.1 hmem with h | h
    · exact hs s h
    · rw [List.mem_singleton.1 h]
      intro hbusy
      cases hbusy

theorem busy_invariant_arrival (lb : LoadBalancer) (h : busy_invariant lb) :
    busy_invariant (arrival rand lb) := by
  obtain ⟨hmin, hmax, hq, hs⟩ := h
  unfold arrival
  split
  · have ht := generate_random_request_time rand
      { lb with rand_calls := lb.rand_calls + 1 } hmin hmax
    refine ⟨hmin, hmax, ?_, hs⟩
    intro r hr
    rcases List.mem_append.1 hr with h | h
    · exact hq r h
    · rw [List.mem_singleton.1 h]
      omega
  · exact ⟨hmin, hmax, hq, hs⟩

theorem busy_invariant_cycle (lb : LoadBalancer) (h : busy_invariant lb) :
    busy_invariant (cycle rand uninit lb) := by
  apply busy_invariant_arrival
  have h3 := busy_invariant_scaling_pass uninit _
    (busy_invariant_time_advance_pass _ (busy_invariant_assignment_pass lb h))
  exact h3

/-- The half of the counter property that holds: in every state reached from the constructor
after any number of cycles, every busy worker has `0 ≤ processed_time < current.time`. -/
theorem busy_counter_in_range (N T : Int) (out : List Record) (k : Nat) :
    ∀ s ∈ (cycles rand uninit k (LoadBalancer.constructed rand uninit N T out)).servers,
      s.is_idle = false → 0 ≤ s.processed_time ∧ s.processed_time < s.current.time := by
  have h : ∀ (k : Nat) (lb : LoadBalancer), busy_invariant lb →
      busy_invariant (cycles rand uninit k lb) := by
    intro k
    induction k with
    | zero => exact fun lb h => h
    | succ k ih => exact fun lb h => ih _ (busy_invariant_cycle rand uninit lb h)
  exact (h k _ (busy_invariant_constructed rand uninit N T out)).2.2.2

end BusyCounter

/-! ## The constructor -/

section Constructor

variable (rand : Nat → Nat) (uninit : Nat → Int)

theorem fill_queue_length (n : Nat) (lb : LoadBalancer) :
    (fill_queue rand n lb).request_queue.length = lb.request_queue.length + n ∧
    (fill_queue rand n lb).min_request_time = lb.min_request_time ∧
    (fill_queue rand n lb).max_request_time = lb.max_request_time := by
  induction n generalizing lb with
  | zero => simp [fill_queue]
  | succ n ih =>
    have h := ih { (generate_random_request rand lb).2 with
      request_queue := (generate_random_request rand lb).2.request_queue ++
        [(generate_random_request rand lb).1] }
    simp only [fill_queue]
    refine ⟨?_, h.2.1, h.2.2⟩
    rw [h.1]
    simp only [generate_random_request_queue, List.length_append, List.length_singleton]
    omega

theorem fill_servers_ids (n : Nat) (i : Int) (lb : LoadBalancer) :
    (fill_servers uninit n i lb).servers.map (fun s => s.num_webserver) =
      lb.servers.map (fun s => s.num_webserver) ++
        (List.range n).map (fun j : Nat => i + (j : Int) + 1) := by
  induction n generalizing i lb with
  | zero => simp [fill_servers]
  | succ n ih =>
    simp only [fill_servers, ih, List.map_append, List.map_cons, List.map_nil,
      List.append_assoc, List.singleton_append, List.range_succ_eq_map, List.map_map]
    congr 1
    simp only [WebServer.new, Nat.cast_zero, add_zero, List.cons.injEq, true_and]
    apply List.map_congr_left
    intro j _
    simp only [Function.comp_apply, Nat.cast_succ]
    ring

theorem fill_servers_fresh (n : Nat) (i : Int) (lb : LoadBalancer)
    (hs : ∀ s ∈ lb.servers, s.is_idle = true ∧ s.processed_time = 0) :
    ∀ s ∈ (fill_servers uninit n i lb).servers, s.is_idle = true ∧ s.processed_time = 0 := by
  induction n generalizing i lb with
  | zero => exact hs
  | succ n ih =>
    apply ih (i + 1) { lb with
      servers := lb.servers ++ [(WebServer.new (i + 1) (uninit lb.allocs)).1]
      output_stream := lb.output_stream ++ (WebServer.new (i + 1) (uninit lb.allocs)).2
      allocs := lb.allocs + 1 }
    intro s hmem
    rcases List.mem_append.1 hmem with h | h
    · exact hs s h
    · rw [List.mem_singleton.1 h]
      exact ⟨rfl, rfl⟩

theorem constructed_num_servers (N T : Int) (out : List Record) :
    (LoadBalancer.constructed rand uninit N T out).num_servers = N := by
  simp [LoadBalancer.constructed, LoadBalancer.members, (fill_servers_frame uninit _ _ _).2.2.1,
    (fill_queue_frame rand _ _).2.2.2.1]

theorem constructed_queue_length (N T : Int) (out : List Record) :
    (LoadBalancer.constructed rand uninit N T out).request_queue.length = (wrap_int (100 * N)).toNat := by
  simp [LoadBalancer.constructed, LoadBalancer.members, (fill_servers_frame uninit _ _ _).2.2.2.1,
    (fill_queue_length rand _ _).1]

theorem constructed_bounds (N T : Int) (out : List Record) :
    (LoadBalancer.constructed rand uninit N T out).min_request_time = 5 ∧
    (LoadBalancer.constructed rand uninit N T out).max_request_time = 45 :=
  ⟨(busy_invariant_constructed rand uninit N T out).1, (busy_invariant_constructed rand uninit N T out).2.1⟩

theorem constructed_ids (N T : Int) (out : List Record) :
    (LoadBalancer.constructed rand uninit N T out).servers.map (fun s => s.num_webserver) =
      (List.range N.toNat).map (fun j : Nat => (j : Int) + 1) := by
  simp [LoadBalancer.constructed, LoadBalancer.members, fill_servers_ids, (fill_queue_frame rand _ _).2.2.1]

theorem constructed_fresh (N T : Int) (out : List Record) :
    ∀ s ∈ (LoadBalancer.constructed rand uninit N T out).servers,
      s.is_idle = true ∧ s.processed_time = 0 := by
  have h := fill_servers_fresh uninit N.toNat 0 (fill_queue rand (wrap_int (100 * N)).toNat
    (members N T out)) (by rw [(fill_queue_frame rand _ _).2.2.1]; simp [members])
  exact h

end Constructor

/-! ## The request generator -/

section Generator

theorem octet_eq (draw : Nat) : octet draw = toString (draw % 256) := rfl

theorem generate_random_ip_eq (rand : Nat → Nat) (lb : LoadBalancer) :
    (generate_random_ip rand lb).1 =
      toString (rand lb.rand_calls % 256) ++ "." ++
      toString (rand (lb.rand_calls + 1) % 256) ++ "." ++
      toString (rand (lb.rand_calls + 2) % 256) ++ "." ++
      toString (rand (lb.rand_calls + 3) % 256) := rfl

end Generator

/-! ## The server counter and the identifiers -/

section Counter

variable (rand : Nat → Nat) (uninit : Nat → Int)

theorem idle_count_add_busy_count (servers : List WebServer) :
    idle_count servers + busy_count servers = servers.length := by
  induction servers with
  | nil => rfl
  | cons s rest ih =>
    simp only [idle_count, busy_count, List.countP_cons, List.length_cons] at ih ⊢
    cases hs : s.is_idle
    · simp only [Bool.not_false, if_true, Bool.false_eq_true, if_false]
      omega
    · simp only [Bool.not_true, if_true, Bool.false_eq_true, if_false]
      omega

theorem idle_count_eq_zero (servers : List WebServer) (h : idle_count servers = 0) :
    ∀ s ∈ servers, s.is_idle = false := by
  intro s hs
  have := (List.countP_eq_zero.1 h) s hs
  simpa using this

theorem idle_count_of_all_busy (servers : List WebServer)
    (h : ∀ s ∈ servers, s.is_idle = false) : idle_count servers = 0 := by
  apply List.countP_eq_zero.2
  intro s hs
  simp [h s hs]

theorem cycle_num_servers (lb : LoadBalancer) :
    (cycle rand uninit lb).num_servers =
      (scaling_pass uninit (time_advance_pass (assignment_pass lb))).num_servers := by
  simp [cycle]

theorem scaling_pass_count (lb : LoadBalancer) (h : lb.num_servers = lb.servers.length) :
    (scaling_pass uninit lb).num_servers = (scaling_pass uninit lb).servers.length := by
  cases h1 : (queue_per_server lb).gt ADD_THRESHOLD
  · by_cases h2 : (queue_per_server lb).lt REMOVE_THRESHOLD = true ∧ 1 < lb.servers.length
    · obtain ⟨last, _, hsc⟩ := scaling_pass_remove uninit lb h1 h2.1 h2.2
      rw [hsc]
      simp only [List.length_dropLast, h]
      omega
    · rw [scaling_pass_keep uninit lb h1 h2]
      exact h
  · rw [scaling_pass_add uninit lb h1]
    simp [h]

theorem cycle_count (lb : LoadBalancer) (h : lb.num_servers = lb.servers.length) :
    (cycle rand uninit lb).num_servers = (cycle rand uninit lb).servers.length := by
  rw [cycle_num_servers, cycle_servers]
  apply scaling_pass_count
  simpa using h

theorem cycles_count (k : Nat) (lb : LoadBalancer) (h : lb.num_servers = lb.servers.length) :
    (cycles rand uninit k lb).num_servers = (cycles rand uninit k lb).servers.length := by
  induction k generalizing lb with
  | zero => exact h
  | succ k ih => exact ih _ (cycle_count rand uninit lb h)

theorem constructed_count (N T : Int) (out : List Record) (hN : 0 ≤ N) :
    (LoadBalancer.constructed rand uninit N T out).num_servers =
      (LoadBalancer.constructed rand uninit N T out).servers.length := by
  rw [constructed_num_servers, constructed_servers_length]
  omega

theorem assign_loop_num_idle (servers : List WebServer) (st : Assign) :
    (assign_loop servers st).2.num_idle_servers +
        (busy_count (assign_loop servers st).1 : Int) = st.num_idle_servers := by
  induction servers generalizing st with
  | nil => simp [assign_loop, busy_count]
  | cons s rest ih =>
    cases hs : s.is_idle with
    | false =>
      have h := ih { st with num_idle_servers := st.num_idle_servers - 1 }
      simp only [assign_loop, hs, busy_count, List.countP_cons, Bool.not_false, if_true] at h ⊢
      push_cast
      omega
    | true =>
      cases hq : st.request_queue with
      | nil =>
        have h := ih st
        simp only [assign_loop, hs, hq, busy_count, List.countP_cons, Bool.not_true] at h ⊢
        simpa using h
      | cons req queue =>
        have h := ih
          { request_queue := queue
            num_idle_servers := st.num_idle_servers - 1
            has_processed_request := true
            output := st.output ++ (s.handle_request req).2 }
        simp only [assign_loop, hs, hq, busy_count, List.countP_cons,
          WebServer.handle_request, Bool.not_false, if_true] at h ⊢
        push_cast
        omega

theorem final_status_count (servers : List WebServer) (b : Int) :
    (final_status servers b).2 = b + (busy_count servers : Int) := by
  induction servers generalizing b with
  | nil => simp [final_status, busy_count]
  | cons s rest ih =>
    cases hs : s.is_idle with
    | false =>
      simp [final_status, hs, ih, busy_count, List.countP_cons]
      ring
    | true => simp [final_status, hs, ih, busy_count, List.countP_cons]

/-- The last two lines of the assignment report: the idle count `num_idle_servers` and the
total `num_servers`. -/
theorem assignment_pass_report (lb : LoadBalancer) :
    ∃ pre : List Record, (assignment_pass lb).output_stream = pre ++
      [Record.idle_servers (lb.num_servers - (busy_count (assignment_pass lb).servers : Int)),
       Record.total_servers lb.num_servers] := by
  have h := assign_loop_num_idle lb.servers
    { request_queue := lb.request_queue
      num_idle_servers := lb.num_servers
      has_processed_request := false
      output := lb.output_stream ++
        [Record.cycle_header (lb.time_elapsed + 1),
         Record.current_queue_size (lb.request_queue.length : Int)] }
  have h2 : (assign_loop lb.servers
      { request_queue := lb.request_queue
        num_idle_servers := lb.num_servers
        has_processed_request := false
        output := lb.output_stream ++
          [Record.cycle_header (lb.time_elapsed + 1),
           Record.current_queue_size (lb.request_queue.length : Int)] }).2.num_idle_servers =
      lb.num_servers - (busy_count (assignment_pass lb).servers : Int) := by
    simp only [assignment_pass] at h ⊢
    omega
  unfold assignment_pass
  simp only
  rw [h2]
  exact ⟨_, rfl⟩

end Counter

section Identifiers

variable (rand : Nat → Nat) (uninit : Nat → Int)

theorem assign_loop_ids (servers : List WebServer) (st : Assign) :
    (assign_loop servers st).1.map (fun s => s.num_webserver) =
      servers.map (fun s => s.num_webserver) := by
  induction servers generalizing st with
  | nil => simp [assign_loop]
  | cons s rest ih =>
    cases hs : s.is_idle <;> cases hq : st.request_queue <;>
      simp [assign_loop, hs, hq, ih, WebServer.handle_request]

theorem pass_time_num_webserver (s : WebServer) :
    s.pass_time.1.num_webserver = s.num_webserver := by
  rw [pass_time_eq]
  split <;> rfl

theorem pass_time_loop_ids (servers : List WebServer) :
    (pass_time_loop servers).1.map (fun s => s.num_webserver) =
      servers.map (fun s => s.num_webserver) := by
  rw [pass_time_loop_servers, List.map_map]
  apply List.map_congr_left
  intro s _
  exact pass_time_num_webserver s

theorem sequential_ids_append (servers : List WebServer) (w : WebServer)
    (h : sequential_ids servers) (hw : w.num_webserver = (servers.length : Int) + 1) :
    sequential_ids (servers ++ [w]) := by
  unfold sequential_ids at h ⊢
  simp [List.range_succ, h, hw]

theorem sequential_ids_dropLast (servers : List WebServer) (h : sequential_ids servers) :
    sequential_ids servers.dropLast := by
  unfold sequential_ids at h ⊢
  rw [List.map_dropLast, h, ← List.map_dropLast, List.length_dropLast]
  congr 1
  cases hn : servers.length with
  | zero => rfl
  | succ n => simp [List.range_succ]

theorem sequential_ids_congr (a b : List WebServer)
    (h : a.map (fun s => s.num_webserver) = b.map (fun s => s.num_webserver))
    (hb : sequential_ids b) : sequential_ids a := by
  have hlen : a.length = b.length := by
    have := congrArg List.length h
    simpa using this
  unfold sequential_ids at hb ⊢
  rw [h, hb, hlen]

theorem scaling_pass_ids (lb : LoadBalancer) (h : sequential_ids lb.servers) :
    sequential_ids (scaling_pass uninit lb).servers := by
  cases h1 : (queue_per_server lb).gt ADD_THRESHOLD
  · by_cases h2 : (queue_per_server lb).lt REMOVE_THRESHOLD = true ∧ 1 < lb.servers.length
    · obtain ⟨last, _, hsc⟩ := scaling_pass_remove uninit lb h1 h2.1 h2.2
      rw [hsc]
      exact sequential_ids_dropLast _ h
    · rw [scaling_pass_keep uninit lb h1 h2]
      exact h
  · rw [scaling_pass_add uninit lb h1]
    apply sequential_ids_append _ _ h
    simp [WebServer.new]

theorem cycle_ids (lb : LoadBalancer) (h : sequential_ids lb.servers) :
    sequential_ids (cycle rand uninit lb).servers := by
  rw [cycle_servers]
  apply scaling_pass_ids
  apply sequential_ids_congr _ lb.servers _ h
  simp only [time_advance_pass, assignment_pass, pass_time_loop_ids, assign_loop_ids]

theorem cycles_ids (k : Nat) (lb : LoadBalancer) (h : sequential_ids lb.servers) :
    sequential_ids (cycles rand uninit k lb).servers := by
  induction k generalizing lb with
  | zero => exact h
  | succ k ih => exact ih _ (cycle_ids rand uninit lb h)

theorem constructed_sequential_ids (N T : Int) (out : List Record) :
    sequential_ids (LoadBalancer.constructed rand uninit N T out).servers := by
  unfold sequential_ids
  rw [constructed_ids, constructed_servers_length]

theorem sequential_ids_getElem? (servers : List WebServer) (h : sequential_ids servers)
    (p : Nat) (s : WebServer) (hp : servers[p]? = some s) :
    s.num_webserver = (p : Int) + 1 := by
  have hlt : p < servers.length := (List.getElem?_eq_some.1 hp).1
  have h1 : (servers.map (fun s => s.num_webserver))[p]? = some s.num_webserver := by
    simp [hp]
  rw [h] at h1
  simp [List.getElem?_range hlt] at h1
  omega

theorem sequential_ids_nodup (servers : List WebServer) (h : sequential_ids servers) :
    (servers.map (fun s => s.num_webserver)).Nodup := by
  rw [h]
  apply List.Nodup.map _ (List.nodup_range _)
  intro a b hab
  simp only at hab
  omega

theorem sequential_ids_mem (servers : List WebServer) (h : sequential_ids servers) (i : Int) :
    i ∈ servers.map (fun s => s.num_webserver) ↔ 1 ≤ i ∧ i ≤ servers.length := by
  rw [h]
  simp only [List.mem_map, List.mem_range]
  constructor
  · rintro ⟨j, hj, rfl⟩
    omega
  · intro hi
    exact ⟨(i - 1).toNat, by omega, by omega⟩

end Identifiers

/-! ## The "all servers busy" line -/

section NoCapacity

variable (rand : Nat → Nat) (uninit : Nat → Int)

theorem assign_loop_has_processed (servers : List WebServer) (st : Assign) :
    (assign_loop servers st).2.has_processed_request =
      (st.has_processed_request ||
        decide (0 < min (idle_count servers) st.request_queue.length)) := by
  induction servers generalizing st with
  | nil => simp [assign_loop, idle_count_nil]
  | cons s rest ih =>
    cases hs : s.is_idle <;> cases hq : st.request_queue <;>
      simp [assign_loop, hs, hq, ih, idle_count_cons]

theorem assign_loop_all_busy (servers : List WebServer) (st : Assign)
    (h : ∀ s ∈ servers, s.is_idle = false) :
    assign_loop servers st =
      (servers, { st with num_idle_servers := st.num_idle_servers - servers.length }) := by
  induction servers generalizing st with
  | nil => simp [assign_loop]
  | cons s rest ih =>
    have hs : s.is_idle = false := h s (List.mem_cons_self _ _)
    have hrest : ∀ w ∈ rest, w.is_idle = false := fun w hw => h w (List.mem_cons_of_mem _ hw)
    simp only [assign_loop, hs, ih _ hrest, List.length_cons, Nat.cast_succ]
    congr 2
    ring

theorem assign_loop_count_busy_line (servers : List WebServer) (st : Assign) :
    (assign_loop servers st).2.output.count Record.all_servers_busy =
      st.output.count Record.all_servers_busy := by
  induction servers generalizing st with
  | nil => simp [assign_loop]
  | cons s rest ih =>
    cases hs : s.is_idle <;> cases hq : st.request_queue <;>
      simp [assign_loop, hs, hq, ih, WebServer.handle_request, List.count_append]

theorem pass_time_loop_count_busy_line (servers : List WebServer) :
    (pass_time_loop servers).2.count Record.all_servers_busy = 0 := by
  induction servers with
  | nil => rfl
  | cons s rest ih =>
    simp only [pass_time_loop, List.count_append, ih, Nat.add_zero]
    rw [pass_time_eq]
    split <;> simp

theorem scaling_pass_count_busy_line (lb : LoadBalancer) :
    (scaling_pass uninit lb).output_stream.count Record.all_servers_busy =
      lb.output_stream.count Record.all_servers_busy := by
  cases h1 : (queue_per_server lb).gt ADD_THRESHOLD
  · by_cases h2 : (queue_per_server lb).lt REMOVE_THRESHOLD = true ∧ 1 < lb.servers.length
    · obtain ⟨last, _, hsc⟩ := scaling_pass_remove uninit lb h1 h2.1 h2.2
      rw [hsc]
      simp [List.count_append, WebServer.destructor]
    · rw [scaling_pass_keep uninit lb h1 h2]
  · rw [scaling_pass_add uninit lb h1]
    simp [List.count_append, WebServer.new]

/-- The condition under which the line is written, in terms of the state at the start of the
cycle. -/
theorem no_capacity_condition (lb : LoadBalancer) :
    ((!(assign_loop lb.servers
        { request_queue := lb.request_queue
          num_idle_servers := lb.num_servers
          has_processed_request := false
          output := lb.output_stream ++
            [Record.cycle_header (lb.time_elapsed + 1),
             Record.current_queue_size (lb.request_queue.length : Int)] }).2.has_processed_request
        && decide ((lb.request_queue.length : Int) > 0)) = true) ↔
      (lb.request_queue ≠ [] ∧ ∀ s ∈ lb.servers, s.is_idle = false) := by
  rw [assign_loop_has_processed]
  simp only [Bool.false_or, Bool.and_eq_true, Bool.not_eq_true', decide_eq_false_iff_not,
    decide_eq_true_eq, not_lt, Nat.le_zero]
  constructor
  · rintro ⟨hmin, hq⟩
    have hq0 : lb.request_queue.length ≠ 0 := by omega
    have hi : idle_count lb.servers = 0 := by
      rcases Nat.min_eq_zero_iff.1 hmin with h | h
      · exact h
      · exact absurd h hq0
    exact ⟨fun h => hq0 (by rw [h]; rfl), idle_count_eq_zero _ hi⟩
  · rintro ⟨hq, hbusy⟩
    have hlen : 0 < lb.request_queue.length := List.length_pos.2 hq
    refine ⟨?_, by omega⟩
    rw [idle_count_of_all_busy _ hbusy]
    simp

theorem assignment_pass_count_busy_line (lb : LoadBalancer) :
    (assignment_pass lb).output_stream.count Record.all_servers_busy =
      lb.output_stream.count Record.all_servers_busy +
        (if lb.request_queue ≠ [] ∧ ∀ s ∈ lb.servers, s.is_idle = false then 1 else 0) := by
  have hc := no_capacity_condition lb
  unfold assignment_pass
  simp only
  by_cases h : lb.request_queue ≠ [] ∧ ∀ s ∈ lb.servers, s.is_idle = false
  · rw [if_pos (hc.2 h), if_pos h]
    simp [List.count_append, assign_loop_count_busy_line]
  · rw [if_neg (fun hh => h (hc.1 hh)), if_neg h]
    simp [List.count_append, assign_loop_count_busy_line]

theorem cycle_count_busy_line (lb : LoadBalancer) :
    (cycle rand uninit lb).output_stream.count Record.all_servers_busy =
      lb.output_stream.count Record.all_servers_busy +
        (if lb.request_queue ≠ [] ∧ ∀ s ∈ lb.servers, s.is_idle = false then 1 else 0) := by
  have hc : cycle rand uninit lb = arrival rand
      { scaling_pass uninit (time_advance_pass (assignment_pass lb)) with
        time_elapsed :=
          (scaling_pass uninit (time_advance_pass (assignment_pass lb))).time_elapsed + 1 } :=
    rfl
  rw [hc, arrival_output]
  show (scaling_pass uninit (time_advance_pass (assignment_pass lb))).output_stream.count _ = _
  rw [scaling_pass_count_busy_line, ← assignment_pass_count_busy_line]
  simp [time_advance_pass, List.count_append, pass_time_loop_count_busy_line]

end NoCapacity

/-! ## A run with one idle worker and nothing to do -/

section Quiet

variable (rand : Nat → Nat) (uninit : Nat → Int)

theorem cycle_headers_append (a b : List Record) :
    cycle_headers (a ++ b) = cycle_headers a ++ cycle_headers b := by
  induction a with
  | nil => rfl
  | cons x a ih => cases x <;> simp [cycle_headers, ih]

theorem cycle_headers_pass_time (s : WebServer) : cycle_headers s.pass_time.2 = [] := by
  rw [pass_time_eq]
  split <;> rfl

theorem pass_time_is_idle (s : WebServer) (h : s.is_idle = true) :
    s.pass_time.1.is_idle = true := by
  rw [pass_time_eq]
  split
  · rfl
  · exact h

theorem arrival_disabled (lb : LoadBalancer)
    (harr : ∀ i : Nat, Int.tmod (rand i : Int) 3 ≠ 0) :
    arrival rand lb = { lb with rand_calls := lb.rand_calls + 1 } := by
  unfold arrival
  rw [if_neg (harr _)]

/-- One cycle from a state with one idle worker and an empty queue, no arrival: the state is of
the same kind, the counter has advanced by 1 and one cycle header has been written. -/
theorem single_idle_cycle (lb : LoadBalancer)
    (harr : ∀ i : Nat, Int.tmod (rand i : Int) 3 ≠ 0) (h : single_idle lb) :
    single_idle (cycle rand uninit lb) ∧
    cycle_headers (cycle rand uninit lb).output_stream =
      cycle_headers lb.output_stream ++ [lb.time_elapsed + 1] := by
  obtain ⟨hlen, hidle, hq, hn⟩ := h
  obtain ⟨w, hw⟩ := List.length_eq_one.1 hlen
  have hwi : w.is_idle = true := hidle w (by rw [hw]; exact List.mem_singleton_self w)
  have h1 : assignment_pass lb =
      { lb with output_stream := lb.output_stream ++
          [Record.cycle_header (lb.time_elapsed + 1), Record.current_queue_size 0,
           Record.idle_servers 1, Record.total_servers 1] } := by
    unfold assignment_pass
    simp [hw, hq, hn, assign_loop, hwi]
  have h2 : time_advance_pass (assignment_pass lb) =
      { lb with
        servers := [w.pass_time.1]
        output_stream := lb.output_stream ++
          [Record.cycle_header (lb.time_elapsed + 1), Record.current_queue_size 0,
           Record.idle_servers 1, Record.total_servers 1] ++ w.pass_time.2 } := by
    rw [h1]
    simp [time_advance_pass, hw, pass_time_loop]
  have hqps : queue_per_server (time_advance_pass (assignment_pass lb)) = Double.fin 0 := by
    rw [h2]
    simp [queue_per_server, Double.div, hq, hn]
  have h3 : scaling_pass uninit (time_advance_pass (assignment_pass lb)) =
      time_advance_pass (assignment_pass lb) := by
    apply scaling_pass_keep
    · rw [hqps]
      simp only [Double.gt, ADD_THRESHOLD, decide_eq_false_iff_not]
      norm_num
    · rw [h2]
      simp
  have hc : cycle rand uninit lb =
      { lb with
        servers := [w.pass_time.1]
        output_stream := lb.output_stream ++
          [Record.cycle_header (lb.time_elapsed + 1), Record.current_queue_size 0,
           Record.idle_servers 1, Record.total_servers 1] ++ w.pass_time.2
        time_elapsed := lb.time_elapsed + 1
        rand_calls := lb.rand_calls + 1 } := by
    have hc0 : cycle rand uninit lb = arrival rand
        { scaling_pass uninit (time_advance_pass (assignment_pass lb)) with
          time_elapsed :=
            (scaling_pass uninit (time_advance_pass (assignment_pass lb))).time_elapsed + 1 } :=
      rfl
    rw [hc0, arrival_disabled rand _ harr, h3, h2]
  rw [hc]
  refine ⟨⟨rfl, ?_, hq, hn⟩, ?_⟩
  · intro s hs
    rw [List.mem_singleton.1 hs]
    exact pass_time_is_idle w hwi
  · simp [cycle_headers_append, cycle_headers, cycle_headers_pass_time]

theorem single_idle_cycles (k : Nat) (lb : LoadBalancer)
    (harr : ∀ i : Nat, Int.tmod (rand i : Int) 3 ≠ 0) (h : single_idle lb) :
    single_idle (cycles rand uninit k lb) ∧
    cycle_headers (cycles rand uninit k lb).output_stream =
      cycle_headers lb.output_stream ++
        (List.range k).map (fun j : Nat => lb.time_elapsed + (j : Int) + 1) := by
  induction k with
  | zero => exact ⟨h, by simp [cycles]⟩
  | succ k ih =>
    obtain ⟨h1, h2⟩ := single_idle_cycle rand uninit _ harr ih.1
    rw [cycles_succ]
    refine ⟨h1, ?_⟩
    rw [h2, ih.2, cycles_time_elapsed, List.range_succ, List.map_append, List.append_assoc]
    rfl

theorem single_idle_shutdown (lb : LoadBalancer) (h : single_idle lb) :
    ∃ pre : List Record, lb.destructor.output_stream = pre ++
      [Record.requests_remaining 0, Record.busy_servers 0, Record.idle_servers 1] := by
  obtain ⟨hlen, hidle, hq, hn⟩ := h
  obtain ⟨w, hw⟩ := List.length_eq_one.1 hlen
  have hwi : w.is_idle = true := hidle w (by rw [hw]; exact List.mem_singleton_self w)
  refine ⟨lb.output_stream ++ [Record.closed_banner] ++ (final_status lb.servers 0).1 ++
    delete_servers lb.servers, ?_⟩
  simp [destructor, hw, hq, hn, final_status, hwi]

end Quiet

/-! ## Following one worker through a cycle -/

section Tracking

variable (rand : Nat → Nat) (uninit : Nat → Int)

theorem scaling_pass_getElem? (lb : LoadBalancer) (p : Nat) (hp : p < lb.servers.length)
    (hle : lb.servers.length ≤ (scaling_pass uninit lb).servers.length) :
    (scaling_pass uninit lb).servers[p]? = lb.servers[p]? := by
  cases h1 : (queue_per_server lb).gt ADD_THRESHOLD
  · by_cases h2 : (queue_per_server lb).lt REMOVE_THRESHOLD = true ∧ 1 < lb.servers.length
    · obtain ⟨last, _, hsc⟩ := scaling_pass_remove uninit lb h1 h2.1 h2.2
      rw [hsc] at hle
      simp only [List.length_dropLast] at hle
      omega
    · rw [scaling_pass_keep uninit lb h1 h2]
  · rw [scaling_pass_add uninit lb h1]
    exact List.getElem?_append_left hp

theorem scaling_pass_no_shrink (lb : LoadBalancer) (hc : lb.num_servers = lb.servers.length)
    (h1 : 1 ≤ lb.servers.length) (hq : lb.servers.length ≤ lb.request_queue.length) :
    lb.servers.length ≤ (scaling_pass uninit lb).servers.length := by
  cases hgt : (queue_per_server lb).gt ADD_THRESHOLD
  · have hlt : ¬ ((queue_per_server lb).lt REMOVE_THRESHOLD = true ∧ 1 < lb.servers.length) := by
      rintro ⟨h, _⟩
      have h3 := (lt_remove_threshold_iff lb h1 hc).1 h
      have hpos : (0 : ℚ) < (lb.servers.length : ℚ) := by exact_mod_cast h1
      rw [div_lt_one hpos] at h3
      have h4 : lb.request_queue.length < lb.servers.length := by exact_mod_cast h3
      omega
    rw [scaling_pass_keep uninit lb hgt hlt]
  · rw [scaling_pass_add uninit lb hgt]
    simp

theorem cycle_queue_no_arrival (lb : LoadBalancer)
    (harr : ∀ i : Nat, Int.tmod (rand i : Int) 3 ≠ 0) :
    (cycle rand uninit lb).request_queue =
      lb.request_queue.drop (min (idle_count lb.servers) lb.request_queue.length) := by
  have hc : cycle rand uninit lb = arrival rand
      { scaling_pass uninit (time_advance_pass (assignment_pass lb)) with
        time_elapsed :=
          (scaling_pass uninit (time_advance_pass (assignment_pass lb))).time_elapsed + 1 } :=
    rfl
  rw [hc, arrival_disabled rand _ harr]
  show (scaling_pass uninit (time_advance_pass (assignment_pass lb))).request_queue = _
  rw [scaling_pass_queue, time_advance_pass_queue, assignment_pass_queue]

theorem idle_count_le_length (servers : List WebServer) :
    idle_count servers ≤ servers.length :=
  List.countP_le_length _

/-- One cycle without arrival from a state with at least `n ≥ 1` and at most `a` workers, the
counter agreeing with the pool, and at least `b ≥ 2 a` pending requests: the pool does not
shrink and grows by at most one worker, at most `a` requests leave the queue, and every worker
is what the assignment pass followed by one `pass_time` makes of it. -/
theorem cycle_step (lb : LoadBalancer) (n a b : Nat)
    (harr : ∀ i : Nat, Int.tmod (rand i : Int) 3 ≠ 0)
    (hc : lb.num_servers = lb.servers.length) (hn : 1 ≤ n) (hnl : n ≤ lb.servers.length)
    (hla : lb.servers.length ≤ a) (hbq : b ≤ lb.request_queue.length) (hab : 2 * a ≤ b) :
    (cycle rand uninit lb).num_servers = (cycle rand uninit lb).servers.length ∧
    n ≤ (cycle rand uninit lb).servers.length ∧
    (cycle rand uninit lb).servers.length ≤ a + 1 ∧
    b ≤ (cycle rand uninit lb).request_queue.length + a ∧
    (∀ p : Nat, p < lb.servers.length →
      (cycle rand uninit lb).servers[p]? =
        ((assignment_pass lb).servers[p]?).map (fun s => s.pass_time.1)) := by
  have hidle := idle_count_le_length lb.servers
  have hq1 : (assignment_pass lb).request_queue.length =
      lb.request_queue.length - min (idle_count lb.servers) lb.request_queue.length := by
    rw [assignment_pass_queue, List.length_drop]
  have hmin : min (idle_count lb.servers) lb.request_queue.length ≤ a :=
    le_trans (Nat.min_le_left _ _) (le_trans hidle hla)
  have hns : (time_advance_pass (assignment_pass lb)).servers.length ≤
      (scaling_pass uninit (time_advance_pass (assignment_pass lb))).servers.length := by
    apply scaling_pass_no_shrink
    · simpa using hc
    · simp only [time_advance_pass_servers_length, assignment_pass_servers_length]
      omega
    · simp only [time_advance_pass_servers_length, assignment_pass_servers_length,
        time_advance_pass_queue, hq1]
      omega
  have hgrow := (scaling_pass_length_bounds uninit (time_advance_pass (assignment_pass lb))).1
  simp only [time_advance_pass_servers_length, assignment_pass_servers_length] at hns hgrow
  refine ⟨cycle_count rand uninit lb hc, ?_, ?_, ?_, ?_⟩
  · rw [cycle_servers]
    omega
  · rw [cycle_servers]
    omega
  · rw [cycle_queue_no_arrival rand uninit lb harr, List.length_drop]
    omega
  · intro p hp
    rw [cycle_servers, scaling_pass_getElem? uninit _ p (by simpa using hp)
      (by simpa using hns)]
    simp [time_advance_pass, pass_time_loop_servers]

/-- A busy worker whose counter stays below the duration is busy with the counter one higher
after a cycle. -/
theorem busy_worker_step (lb : LoadBalancer) (p : Nat) (s : WebServer) (c : Int)
    (hp : lb.servers[p]? = some s) (hbusy : s.is_idle = false) (hpt : s.processed_time = c)
    (hc : c + 1 < s.current.time) :
    ((assignment_pass lb).servers[p]?).map (fun s => s.pass_time.1) =
      some { s with processed_time := c + 1 } := by
  have hnot : ¬ (s.current.time ≤ c + 1) := by omega
  simp [assignment_pass_getElem?, hp, hbusy, pass_time_eq, hnot, hpt]

/-- A busy worker whose counter reaches the duration is idle with counter 0 after a cycle. -/
theorem busy_worker_done (lb : LoadBalancer) (p : Nat) (s : WebServer)
    (hp : lb.servers[p]? = some s) (hbusy : s.is_idle = false)
    (hc : s.processed_time + 1 ≥ s.current.time) :
    ((assignment_pass lb).servers[p]?).map (fun s => s.pass_time.1) =
      some { s with is_idle := true, processed_time := 0 } := by
  simp [assignment_pass_getElem?, hp, hbusy, pass_time_eq, hc]

/-- An idle worker at a position below the queue length is given a pending request. -/
theorem idle_worker_assigned (lb : LoadBalancer) (p : Nat) (s : WebServer)
    (hp : lb.servers[p]? = some s) (hidle : s.is_idle = true)
    (hq : p < lb.request_queue.length) :
    ∃ req : Request, req ∈ lb.request_queue ∧
      (assignment_pass lb).servers[p]? =
        some { s with is_idle := false, processed_time := 0, current := req } := by
  have hj : idle_count (lb.servers.take p) < lb.request_queue.length := by
    have h1 := idle_count_le_length (lb.servers.take p)
    have h2 := List.length_take_le p lb.servers
    omega
  refine ⟨lb.request_queue[idle_count (lb.servers.take p)], List.getElem_mem _, ?_⟩
  simp [assignment_pass_getElem?, hp, hidle, List.getElem?_eq_getElem hj,
    WebServer.handle_request]

end Tracking

section Scenario

variable (rand : Nat → Nat) (uninit : Nat → Int)

theorem idle_count_of_all_idle (servers : List WebServer)
    (h : ∀ s ∈ servers, s.is_idle = true) : idle_count servers = servers.length := by
  have h1 := idle_count_add_busy_count servers
  have h2 : busy_count servers = 0 := by
    apply List.countP_eq_zero.2
    intro s hs
    simp [h s hs]
  omega

/-- The first `n` workers, all busy with counter `c` on requests of duration 5, are busy with
counter `c + 1` after a cycle when `c + 1 < 5`. -/
theorem first_workers_busy_step (lb : LoadBalancer) (n a b : Nat) (c : Int)
    (harr : ∀ i : Nat, Int.tmod (rand i : Int) 3 ≠ 0)
    (hc : lb.num_servers = lb.servers.length) (hn : 1 ≤ n) (hnl : n ≤ lb.servers.length)
    (hla : lb.servers.length ≤ a) (hbq : b ≤ lb.request_queue.length) (hab : 2 * a ≤ b)
    (hc5 : c + 1 < 5)
    (hw : ∀ p : Nat, p < n → ∃ s : WebServer, lb.servers[p]? = some s ∧
      s.is_idle = false ∧ s.processed_time = c ∧ s.current.time = 5) :
    ∀ p : Nat, p < n → ∃ s : WebServer, (cycle rand uninit lb).servers[p]? = some s ∧
      s.is_idle = false ∧ s.processed_time = c + 1 ∧ s.current.time = 5 := by
  intro p hp
  obtain ⟨s, hs, hbusy, hpt, htime⟩ := hw p hp
  have ht := (cycle_step rand uninit lb n a b harr hc hn hnl hla hbq hab).2.2.2.2 p (by omega)
  rw [ht, busy_worker_step lb p s c hs hbusy hpt (by omega)]
  exact ⟨_, rfl, hbusy, rfl, htime⟩

/-- The run of the fixed-duration scenario up to the start of cycle 6, for `n ≥ 1` initial
workers, `100 * n` fitting in an `int`. -/
theorem fixed_duration_run (n : Nat) (T : Int) (out : List Record) (lb0 : LoadBalancer)
    (hn : 1 ≤ n) (hmax : n ≤ 21474836)
    (hlb : lb0 = LoadBalancer.constructed rand uninit (n : Int) T out)
    (hdur : ∀ r ∈ lb0.request_queue, r.time = 5)
    (harr : ∀ i : Nat, Int.tmod (rand i : Int) 3 ≠ 0) :
    lb0.request_queue.length = 100 * n ∧
    (cycles rand uninit 1 lb0).request_queue.length = 100 * n - n ∧
    (∀ p : Nat, p < n → ∃ s : WebServer, (cycles rand uninit 1 lb0).servers[p]? = some s ∧
      s.is_idle = false ∧ s.processed_time = 1) ∧
    (∀ p : Nat, p < n → ∃ s : WebServer, (cycles rand uninit 5 lb0).servers[p]? = some s ∧
      s.is_idle = true ∧ s.processed_time = 0) ∧
    (∀ p : Nat, p < n → ∃ (s : WebServer) (req : Request),
      (assignment_pass (cycles rand uninit 5 lb0)).servers[p]? = some s ∧
      s.is_idle = false ∧ s.processed_time = 0 ∧ s.current = req ∧
      req ∈ (cycles rand uninit 5 lb0).request_queue) := by
  have hc0 : lb0.num_servers = lb0.servers.length := by
    rw [hlb]
    exact constructed_count rand uninit _ T out (by omega)
  have hl0 : lb0.servers.length = n := by
    rw [hlb, constructed_servers_length]
    simp
  have hq0 : lb0.request_queue.length = 100 * n := by
    rw [hlb, constructed_queue_length, wrap_int_eq _ (by omega) (by omega)]
    omega
  have hfresh : ∀ s ∈ lb0.servers, s.is_idle = true ∧ s.processed_time = 0 := by
    rw [hlb]
    exact constructed_fresh rand uninit _ T out
  -- cycle 1
  obtain ⟨hc1, hn1, hl1, hq1, ht1⟩ := cycle_step rand uninit lb0 n n (100 * n) harr hc0 hn
    (by omega) (by omega) (by omega) (by omega)
  have hw1 : ∀ p : Nat, p < n → ∃ s : WebServer,
      (cycle rand uninit lb0).servers[p]? = some s ∧
      s.is_idle = false ∧ s.processed_time = 1 ∧ s.current.time = 5 := by
    intro p hp
    have hps : p < lb0.servers.length := by omega
    have hs0 : lb0.servers[p]? = some lb0.servers[p] := List.getElem?_eq_getElem hps
    have hidle := (hfresh _ (List.getElem_mem hps)).1
    obtain ⟨req, hreq, hassign⟩ := idle_worker_assigned lb0 p _ hs0 hidle (by omega)
    have h5 := hdur req hreq
    rw [ht1 p hps, hassign]
    refine ⟨_, rfl, ?_⟩
    simp [pass_time_eq, h5]
  have hqlen1 : (cycle rand uninit lb0).request_queue.length = 100 * n - n := by
    rw [cycle_queue_no_arrival rand uninit lb0 harr, List.length_drop,
      idle_count_of_all_idle _ (fun s hs => (hfresh s hs).1)]
    omega
  -- cycles 2, 3, 4
  obtain ⟨hc2, hn2, hl2, hq2, _⟩ := cycle_step rand uninit (cycle rand uninit lb0) n (n + 1)
    (99 * n) harr hc1 hn hn1 hl1 (by omega) (by omega)
  have hw2 := first_workers_busy_step rand uninit (cycle rand uninit lb0) n (n + 1) (99 * n) 1
    harr hc1 hn hn1 hl1 (by omega) (by omega) (by decide) hw1
  obtain ⟨hc3, hn3, hl3, hq3, _⟩ := cycle_step rand uninit
    (cycle rand uninit (cycle rand uninit lb0)) n (n + 2) (98 * n - 1) harr hc2 hn hn2 hl2
    (by omega) (by omega)
  have hw3 := first_workers_busy_step rand uninit (cycle rand uninit (cycle rand uninit lb0))
    n (n + 2) (98 * n - 1) (1 + 1) harr hc2 hn hn2 hl2 (by omega) (by omega) (by decide) hw2
  obtain ⟨hc4, hn4, hl4, hq4, _⟩ := cycle_step rand uninit
    (cycle rand uninit (cycle rand uninit (cycle rand uninit lb0))) n (n + 3) (97 * n - 3)
    harr hc3 hn hn3 hl3 (by omega) (by omega)
  have hw4 := first_workers_busy_step rand uninit
    (cycle rand uninit (cycle rand uninit (cycle rand uninit lb0)))
    n (n + 3) (97 * n - 3) (1 + 1 + 1) harr hc3 hn hn3 hl3 (by omega) (by omega) (by decide) hw3
  -- cycle 5: the requests complete
  obtain ⟨hc5, hn5, hl5, hq5, ht5⟩ := cycle_step rand uninit
    (cycle rand uninit (cycle rand uninit (cycle rand uninit (cycle rand uninit lb0))))
    n (n + 4) (96 * n - 6) harr hc4 hn hn4 hl4 (by omega) (by omega)
  have hw5 : ∀ p : Nat, p < n → ∃ s : WebServer,
      (cycle rand uninit (cycle rand uninit (cycle rand uninit (cycle rand uninit
        (cycle rand uninit lb0))))).servers[p]? = some s ∧
      s.is_idle = true ∧ s.processed_time = 0 := by
    intro p hp
    obtain ⟨s, hs, hbusy, hpt, htime⟩ := hw4 p hp
    rw [ht5 p (by omega), busy_worker_done _ p s hs hbusy (by rw [hpt, htime]; decide)]
    exact ⟨_, rfl, rfl, rfl⟩
  -- cycle 6: the assignment pass
  have hw6 : ∀ p : Nat, p < n → ∃ (s : WebServer) (req : Request),
      (assignment_pass (cycle rand uninit (cycle rand uninit (cycle rand uninit
        (cycle rand uninit (cycle rand uninit lb0)))))).servers[p]? = some s ∧
      s.is_idle = false ∧ s.processed_time = 0 ∧ s.current = req ∧
      req ∈ (cycle rand uninit (cycle rand uninit (cycle rand uninit (cycle rand uninit
        (cycle rand uninit lb0))))).request_queue := by
    intro p hp
    obtain ⟨s, hs, hidle, _⟩ := hw5 p hp
    obtain ⟨req, hreq, hassign⟩ := idle_worker_assigned _ p s hs hidle (by omega)
    exact ⟨_, req, hassign, rfl, rfl, rfl, hreq⟩
  refine ⟨hq0, hqlen1, ?_, hw5, hw6⟩
  intro p hp
  obtain ⟨s, hs, hbusy, hpt, _⟩ := hw1 p hp
  exact ⟨s, hs, hbusy, hpt⟩

end Scenario

/-! ## Claims -/

/-- C1: for a worker count `N ≥ 1`, a budget `T ≥ 0` and any draws, the constructor returns a
state `lb0`, and `handle_requests` on it is the result of exactly `T` executions of the loop
body and exits with `time_elapsed = T`: after `k` executions the counter is `k`, the loop
condition still holds before each of the first `T` executions and fails after the `T`-th; every
execution of the body adds exactly 1 to `time_elapsed`, `is_finished` is true exactly when
`time_elapsed ≥ time_to_run`, and `handle_requests` obeys the equation of the `while` loop. -/
theorem C1_handle_requests_runs_exactly_T_cycles (rand : Nat → Nat) (uninit : Nat → Int)
    (N T : Int) (out : List Record) (hN : 1 ≤ N) (hT : 0 ≤ T) :
    ∃ lb0 : LoadBalancer, LoadBalancer.new rand uninit N T out = Except.ok lb0 ∧
      handle_requests rand uninit lb0 = cycles rand uninit T.toNat lb0 ∧
      (handle_requests rand uninit lb0).time_elapsed = T ∧
      (handle_requests rand uninit lb0).is_finished = true ∧
      (∀ k : Nat, (cycles rand uninit k lb0).time_elapsed = k) ∧
      (∀ k : Nat, k < T.toNat → (cycles rand uninit k lb0).is_finished = false) ∧
      (∀ lb : LoadBalancer, (cycle rand uninit lb).time_elapsed = lb.time_elapsed + 1) ∧
      (∀ lb : LoadBalancer, lb.is_finished = true ↔ lb.time_elapsed ≥ lb.time_to_run) ∧
      (∀ lb : LoadBalancer, handle_requests rand uninit lb =
        if lb.is_finished then lb else handle_requests rand uninit (cycle rand uninit lb)) := by
  refine ⟨LoadBalancer.constructed rand uninit N T out,
    new_of_nonneg rand uninit N T out (by omega), ?_⟩
  have he := constructed_time_elapsed rand uninit N T out
  have ht := constructed_time_to_run rand uninit N T out
  have hrun : handle_requests rand uninit (LoadBalancer.constructed rand uninit N T out) =
      cycles rand uninit T.toNat (LoadBalancer.constructed rand uninit N T out) := by
    rw [handle_requests_eq_cycles, he, ht]
    simp
  refine ⟨hrun, ?_, ?_, ?_, ?_, cycle_time_elapsed rand uninit, is_finished_iff,
    handle_requests_unfold rand uninit⟩
  · rw [hrun, cycles_time_elapsed, he]
    omega
  · rw [hrun, is_finished_iff, cycles_time_elapsed, cycles_time_to_run, he, ht]
    omega
  · intro k
    rw [cycles_time_elapsed, he]
    simp
  · intro k hk
    have h : ¬ (cycles rand uninit k
        (LoadBalancer.constructed rand uninit N T out)).is_finished = true := by
      rw [is_finished_iff, cycles_time_elapsed, cycles_time_to_run, he, ht]
      omega
    simpa using h

/-- Witness of C1 at `N = 1`, `T = 3`, all draws 0. -/
theorem C1_witness :
    (1 : Int) ≤ 1 ∧ (0 : Int) ≤ 3 ∧
    ∃ lb0 : LoadBalancer,
      LoadBalancer.new (fun _ => 0) (fun _ => 0) 1 3 [] = Except.ok lb0 ∧
      (handle_requests (fun _ => 0) (fun _ => 0) lb0).time_elapsed = 3 :=
  ⟨by decide, by decide,
   (C1_handle_requests_runs_exactly_T_cycles (fun _ => 0) (fun _ => 0) 1 3 []
      (by decide) (by decide)).imp (fun _ h => ⟨h.1, h.2.2.1⟩)⟩

/-- C2: for a run started by the constructor with `N ≥ 1` workers, the constructor returns a
state `lb0`, and the pool holds at least one worker after every number `k` of cycles and at the
exit of `handle_requests`, for all draws; and a scaling pass entered with exactly one worker
keeps that worker in the pool. -/
theorem C2_pool_never_empty (rand : Nat → Nat) (uninit : Nat → Int)
    (N T : Int) (out : List Record) (hN : 1 ≤ N) :
    ∃ lb0 : LoadBalancer, LoadBalancer.new rand uninit N T out = Except.ok lb0 ∧
      (∀ k : Nat, 1 ≤ (cycles rand uninit k lb0).servers.length) ∧
      1 ≤ (handle_requests rand uninit lb0).servers.length ∧
      (∀ (lb : LoadBalancer) (w : WebServer), lb.servers = [w] →
        (scaling_pass uninit lb).servers.head? = some w) := by
  refine ⟨LoadBalancer.constructed rand uninit N T out,
    new_of_nonneg rand uninit N T out (by omega), ?_⟩
  have h0 : 1 ≤ (LoadBalancer.constructed rand uninit N T out).servers.length := by
    rw [constructed_servers_length]
    omega
  refine ⟨fun k => cycles_length_pos rand uninit k _ h0, ?_, ?_⟩
  · rw [handle_requests_eq_cycles]
    exact cycles_length_pos rand uninit _ _ h0
  · intro lb w hw
    cases h1 : (queue_per_server lb).gt ADD_THRESHOLD
    · rw [scaling_pass_keep uninit lb h1 (by simp [hw]), hw]
      rfl
    · rw [scaling_pass_add uninit lb h1, hw]
      rfl

/-- Witness of C2 at `N = 1`, `T = 3`, all draws 0. -/
theorem C2_witness :
    (1 : Int) ≤ 1 ∧
    ∃ lb0 : LoadBalancer,
      LoadBalancer.new (fun _ => 0) (fun _ => 0) 1 3 [] = Except.ok lb0 ∧
      1 ≤ (handle_requests (fun _ => 0) (fun _ => 0) lb0).servers.length :=
  ⟨by decide,
   (C2_pool_never_empty (fun _ => 0) (fun _ => 0) 1 3 [] (by decide)).imp
     (fun _ h => ⟨h.1, h.2.2.1⟩)⟩

set_option maxRecDepth 100000 in
/-- C3 fails on the code: with `N = 1`, `T = 32` and every draw equal to 41 (all durations are
`5 + 41 % 41 = 5`, and `41 % 3 ≠ 0`: no arrival) the constructor returns a state `lb0` whose
queued requests all have duration 5, and at the cycle boundary after the 32 cycles of
`handle_requests` the pool of 16 workers contains worker 12, which is idle with
`processed_time = 1`, not 0. -/
theorem C3_idle_worker_with_nonzero_counter :
    ∃ lb0 : LoadBalancer,
      LoadBalancer.new (fun _ => 41) (fun _ => 0) 1 32 [] = Except.ok lb0 ∧
      (∀ r ∈ lb0.request_queue, r.time = 5) ∧
      (handle_requests (fun _ => 41) (fun _ => 0) lb0).time_elapsed = 32 ∧
      (handle_requests (fun _ => 41) (fun _ => 0) lb0).servers.length = 16 ∧
      ∃ s ∈ (handle_requests (fun _ => 41) (fun _ => 0) lb0).servers,
        s.num_webserver = 12 ∧ s.is_idle = true ∧ s.processed_time = 1 ∧
        s.current.time = 5 :=
  ⟨_, rfl, by decide!⟩

/-- C4 fails on the code: one call of `pass_time` on an idle worker whose last request had
duration 5 changes `processed_time` from 0 to 1 (the worker stays idle and keeps its request
slot), and the fifth call writes a "request complete" line although no request is in progress. -/
theorem C4_pass_time_changes_idle_worker :
    C4_worker.is_idle = true ∧
    C4_worker.pass_time.1.processed_time = 1 ∧
    C4_worker.pass_time.1 ≠ C4_worker ∧
    (pass_times 3 C4_worker).processed_time = 3 ∧
    (pass_times 4 C4_worker).pass_time.2 = [Record.server_complete 1] := by
  decide

/-- C5: at a scaling pass with queue length `q` and pool size `n ≥ 1` (the counter
`num_servers` agreeing with the pool), with the load `q / n` an exact ratio: the pool size
becomes `n + 1` if `q / n > 9/5`, else `n - 1` if `q / n < 1` and `n > 1`, else stays `n`.
Exactly one of three cases applies: an add (one "adding" line and one "opened" line are
written), a remove (one "removing" line and one "closed" line), or no change at all; so add
and remove never happen together, and over a whole cycle the pool size changes by at most 1. -/
theorem C5_scaling_follows_thresholds (uninit : Nat → Int) (lb : LoadBalancer)
    (hn : 1 ≤ lb.servers.length) (hc : lb.num_servers = lb.servers.length) :
    (scaling_pass uninit lb).servers.length =
      (if (lb.request_queue.length : ℚ) / (lb.servers.length : ℚ) > 9 / 5 then
        lb.servers.length + 1
      else if (lb.request_queue.length : ℚ) / (lb.servers.length : ℚ) < 1 ∧
          1 < lb.servers.length then
        lb.servers.length - 1
      else lb.servers.length) ∧
    (((lb.request_queue.length : ℚ) / (lb.servers.length : ℚ) > 9 / 5 ∧
        (scaling_pass uninit lb).servers.length = lb.servers.length + 1 ∧
        (scaling_pass uninit lb).output_stream = lb.output_stream ++
          [Record.adding_server (lb.servers.length + 1),
           Record.server_opened (lb.servers.length + 1 : Nat)]) ∨
      (¬ (lb.request_queue.length : ℚ) / (lb.servers.length : ℚ) > 9 / 5 ∧
        (lb.request_queue.length : ℚ) / (lb.servers.length : ℚ) < 1 ∧
        1 < lb.servers.length ∧
        (scaling_pass uninit lb).servers.length = lb.servers.length - 1 ∧
        ∃ last, lb.servers.getLast? = some last ∧
          (scaling_pass uninit lb).output_stream = lb.output_stream ++
            [Record.removing_server lb.servers.length,
             Record.server_closed last.num_webserver]) ∨
      (¬ (lb.request_queue.length : ℚ) / (lb.servers.length : ℚ) > 9 / 5 ∧
        ¬ ((lb.request_queue.length : ℚ) / (lb.servers.length : ℚ) < 1 ∧
          1 < lb.servers.length) ∧
        scaling_pass uninit lb = lb)) ∧
    (∀ (rand : Nat → Nat) (lb0 : LoadBalancer),
      (cycle rand uninit lb0).servers.length ≤ lb0.servers.length + 1 ∧
      lb0.servers.length ≤ (cycle rand uninit lb0).servers.length + 1) := by
  have hgt := gt_add_threshold_iff lb hn hc
  have hlt := lt_remove_threshold_iff lb hn hc
  refine ⟨?_, ?_, ?_⟩
  · by_cases h1 : (lb.request_queue.length : ℚ) / (lb.servers.length : ℚ) > 9 / 5
    · rw [if_pos h1, scaling_pass_add uninit lb (hgt.2 h1)]
      simp
    · have h1f : (queue_per_server lb).gt ADD_THRESHOLD = false := by
        simpa using (not_congr hgt).2 h1
      rw [if_neg h1]
      by_cases h2 : (lb.request_queue.length : ℚ) / (lb.servers.length : ℚ) < 1 ∧
          1 < lb.servers.length
      · obtain ⟨last, _, hsc⟩ := scaling_pass_remove uninit lb h1f (hlt.2 h2.1) h2.2
        rw [if_pos h2, hsc]
        simp
      · rw [if_neg h2, scaling_pass_keep uninit lb h1f]
        intro h
        exact h2 ⟨hlt.1 h.1, h.2⟩
  · by_cases h1 : (lb.request_queue.length : ℚ) / (lb.servers.length : ℚ) > 9 / 5
    · left
      refine ⟨h1, ?_, ?_⟩ <;> rw [scaling_pass_add uninit lb (hgt.2 h1)] <;>
        simp [WebServer.new]
    · have h1f : (queue_per_server lb).gt ADD_THRESHOLD = false := by
        simpa using (not_congr hgt).2 h1
      right
      by_cases h2 : (lb.request_queue.length : ℚ) / (lb.servers.length : ℚ) < 1 ∧
          1 < lb.servers.length
      · left
        obtain ⟨last, hlast, hsc⟩ := scaling_pass_remove uninit lb h1f (hlt.2 h2.1) h2.2
        refine ⟨h1, h2.1, h2.2, ?_, last, ?_, ?_⟩
        · rw [hsc]
          simp
        · rw [hlast]
          simp
        · rw [hsc]
          simp [WebServer.destructor]
      · right
        refine ⟨h1, h2, scaling_pass_keep uninit lb h1f ?_⟩
        intro h
        exact h2 ⟨hlt.1 h.1, h.2⟩
  · intro rand lb0
    rw [cycle_servers]
    have h := scaling_pass_length_bounds uninit (time_advance_pass (assignment_pass lb0))
    simpa using h

/-- Witness of C5 at `C5_state`: the pool shrinks from 3 to 2. -/
theorem C5_witness :
    1 ≤ C5_state.servers.length ∧ C5_state.num_servers = C5_state.servers.length ∧
    (scaling_pass (fun _ => 0) C5_state).servers.length = 2 :=
  ⟨by decide, by decide,
   (C5_scaling_follows_thresholds (fun _ => 0) C5_state (by decide) (by decide)).1.trans
     (by decide!)⟩

/-- C6: the assignment pass hands out a prefix of the pending queue, in queue order, and
leaves the matching suffix: for some `k`, the requests written on the assignment lines of the
pass are `take k` of the queue and the queue after the pass is `drop k`; at the end of the cycle
the queue is that suffix followed by at most one arrival.  The arrival step and `add_request`
only append at the tail.  Over any number of cycles the requests handed out so far, in dequeue
order, are a prefix of "initial queue followed by all arrivals" and the queue is the rest: a
request is never dequeued after one that stands behind it. -/
theorem C6_queue_is_fifo (rand : Nat → Nat) (uninit : Nat → Int) (lb : LoadBalancer) :
    (∃ k : Nat, k ≤ lb.request_queue.length ∧
      dequeued (assignment_pass lb).output_stream =
        dequeued lb.output_stream ++ lb.request_queue.take k ∧
      (assignment_pass lb).request_queue = lb.request_queue.drop k ∧
      ∃ extra : List Request, extra.length ≤ 1 ∧
        (cycle rand uninit lb).request_queue = lb.request_queue.drop k ++ extra) ∧
    (∃ extra : List Request, extra.length ≤ 1 ∧
      (arrival rand lb).request_queue = lb.request_queue ++ extra) ∧
    (∀ req : Request, (lb.add_request req).request_queue = lb.request_queue ++ [req]) ∧
    (∀ n : Nat, ∃ (arrivals : List Request) (K : Nat),
      K ≤ (lb.request_queue ++ arrivals).length ∧
      (cycles rand uninit n lb).request_queue = (lb.request_queue ++ arrivals).drop K ∧
      dequeued (cycles rand uninit n lb).output_stream =
        dequeued lb.output_stream ++ (lb.request_queue ++ arrivals).take K) :=
  ⟨⟨min (idle_count lb.servers) lb.request_queue.length, Nat.min_le_right _ _,
      assignment_pass_dequeued lb, assignment_pass_queue lb, cycle_queue rand uninit lb⟩,
    arrival_queue rand lb, fun _ => rfl, fun n => cycles_fifo rand uninit n lb⟩

/-- C7: with `q` pending requests and `i` idle workers at the start of the assignment pass, the
pass makes exactly `min i q` assignments: the queue loses its first `min i q` requests, these
are the requests written on the assignment lines, and `i - min i q` workers are idle
afterwards.  For the worker `s` at position `p`, with `j` the number of idle workers before it:
if `s` is busy it is unchanged; if `s` is idle and the queue has a request `req` at position `j`
it becomes busy holding `req` with `processed_time = 0`; if `s` is idle and `q ≤ j` it is
unchanged (it stays idle). -/
theorem C7_assignment_pass_assigns_min (lb : LoadBalancer) :
    (assignment_pass lb).servers.length = lb.servers.length ∧
    (assignment_pass lb).request_queue =
      lb.request_queue.drop (min (idle_count lb.servers) lb.request_queue.length) ∧
    dequeued (assignment_pass lb).output_stream =
      dequeued lb.output_stream ++
        lb.request_queue.take (min (idle_count lb.servers) lb.request_queue.length) ∧
    idle_count (assignment_pass lb).servers =
      idle_count lb.servers - min (idle_count lb.servers) lb.request_queue.length ∧
    (∀ (p : Nat) (s : WebServer), lb.servers[p]? = some s →
      (s.is_idle = false → (assignment_pass lb).servers[p]? = some s) ∧
      (s.is_idle = true → ∀ req : Request,
        lb.request_queue[idle_count (lb.servers.take p)]? = some req →
        (assignment_pass lb).servers[p]? =
          some { s with is_idle := false, processed_time := 0, current := req }) ∧
      (s.is_idle = true → lb.request_queue.length ≤ idle_count (lb.servers.take p) →
        (assignment_pass lb).servers[p]? = some s)) := by
  refine ⟨assignment_pass_servers_length lb, assignment_pass_queue lb,
    assignment_pass_dequeued lb, ?_, ?_⟩
  · simp [assignment_pass, assign_loop_idle_count]
  · intro p s hp
    refine ⟨?_, ?_, ?_⟩
    · intro hs
      simp [assignment_pass_getElem?, hp, hs]
    · intro hs req hreq
      simp [assignment_pass_getElem?, hp, hs, hreq, WebServer.handle_request]
    · intro hs hq
      have hnone : lb.request_queue[idle_count (lb.servers.take p)]? = none :=
        List.getElem?_eq_none hq
      simp [assignment_pass_getElem?, hp, hs, hnone]

/-- Witness of C7 at `C7_state`: worker 3, the second idle worker, takes the second request. -/
theorem C7_witness :
    C7_state.servers[2]? =
      some { num_webserver := 3, current := { ip_in := "", ip_out := "", time := 5 },
             is_idle := true, processed_time := 0 } ∧
    C7_state.request_queue[idle_count (C7_state.servers.take 2)]? =
      some { ip_in := "3.3.3.3", ip_out := "4.4.4.4", time := 8 } ∧
    (assignment_pass C7_state).servers[2]? =
      some { num_webserver := 3
             current := { ip_in := "3.3.3.3", ip_out := "4.4.4.4", time := 8 }
             is_idle := false, processed_time := 0 } :=
  ⟨by decide, by decide,
   ((C7_assignment_pass_assigns_min C7_state).2.2.2.2 2
      { num_webserver := 3, current := { ip_in := "", ip_out := "", time := 5 },
        is_idle := true, processed_time := 0 } (by decide)).2.1 (by decide)
      { ip_in := "3.3.3.3", ip_out := "4.4.4.4", time := 8 } (by decide)⟩

/-- C8: for a request `r` of duration `d ≥ 1` and an idle worker `s`: after `handle_request r`
the worker is busy, holds `r` and has `processed_time = 0`; after `k < d` further `pass_time`
calls it is still busy with `processed_time = k`; after exactly `d` calls it is idle with
`processed_time = 0`.  For `d = 1`: a worker that the assignment pass of a cycle gives such a
request is idle again after the time advance pass of the same cycle. -/
theorem C8_request_completes_after_its_duration (s : WebServer) (r : Request)
    (hs : s.is_idle = true) (hd : 1 ≤ r.time) :
    (s.handle_request r).1 = { s with is_idle := false, processed_time := 0, current := r } ∧
    (∀ k : Nat, (k : Int) < r.time →
      pass_times k (s.handle_request r).1 =
        { s with is_idle := false, processed_time := k, current := r }) ∧
    pass_times r.time.toNat (s.handle_request r).1 =
      { s with is_idle := true, processed_time := 0, current := r } ∧
    (r.time = 1 → ∀ (lb : LoadBalancer) (p : Nat), lb.servers[p]? = some s →
      lb.request_queue[idle_count (lb.servers.take p)]? = some r →
      (time_advance_pass (assignment_pass lb)).servers[p]? =
        some { s with is_idle := true, processed_time := 0, current := r }) := by
  refine ⟨rfl, ?_, ?_, ?_⟩
  · intro k hk
    rw [pass_times_busy k _ (by simpa [WebServer.handle_request] using hk)]
    simp [WebServer.handle_request]
  · obtain ⟨k, hk⟩ : ∃ k : Nat, r.time.toNat = k + 1 := ⟨r.time.toNat - 1, by omega⟩
    rw [hk, pass_times_complete k _ (by simp only [WebServer.handle_request]; omega)]
    simp [WebServer.handle_request]
  · intro h1 lb p hp hreq
    simp [time_advance_pass, pass_time_loop_servers, assignment_pass_getElem?, hp, hs, hreq,
      WebServer.handle_request, pass_time_eq, h1]

/-- Witness of C8: a request of duration 2 on an idle worker. -/
theorem C8_witness :
    (pass_times 2
      ((WebServer.new 1 0).1.handle_request
        { ip_in := "1.1.1.1", ip_out := "2.2.2.2", time := 2 }).1).is_idle = true :=
  congrArg WebServer.is_idle
    (C8_request_completes_after_its_duration (WebServer.new 1 0).1
      { ip_in := "1.1.1.1", ip_out := "2.2.2.2", time := 2 } (by decide) (by decide)).2.2.1

/-- C9: at a scaling pass with pool size `n ≥ 1` (the counter `num_servers` agreeing with the
pool) and load `q / n > 9/5`, exactly one worker is appended at the tail of the pool: it is
idle, has `processed_time = 0` and identifier `n + 1`; the `n` existing workers and the pending
queue are unchanged. -/
theorem C9_scale_up_appends_one_idle_worker (uninit : Nat → Int) (lb : LoadBalancer)
    (hn : 1 ≤ lb.servers.length) (hc : lb.num_servers = lb.servers.length)
    (hload : (lb.request_queue.length : ℚ) / (lb.servers.length : ℚ) > 9 / 5) :
    ∃ w : WebServer,
      (scaling_pass uninit lb).servers = lb.servers ++ [w] ∧
      w.is_idle = true ∧ w.processed_time = 0 ∧
      w.num_webserver = (lb.servers.length : Int) + 1 ∧
      (scaling_pass uninit lb).servers.length = lb.servers.length + 1 ∧
      (scaling_pass uninit lb).servers.take lb.servers.length = lb.servers ∧
      (scaling_pass uninit lb).request_queue = lb.request_queue ∧
      (scaling_pass uninit lb).num_servers = lb.num_servers + 1 := by
  have hadd := scaling_pass_add uninit lb ((gt_add_threshold_iff lb hn hc).2 hload)
  refine ⟨(WebServer.new ((lb.servers.length + 1 : Nat) : Int) (uninit lb.allocs)).1,
    ?_, rfl, rfl, ?_, ?_, ?_, ?_, ?_⟩
  · rw [hadd]
  · simp [WebServer.new]
  · rw [hadd]
    simp
  · rw [hadd]
    simp
  · rw [hadd]
  · rw [hadd]

/-- Witness of C9 at `C9_state`, where the load is exactly 2. -/
theorem C9_witness :
    1 ≤ C9_state.servers.length ∧ C9_state.num_servers = C9_state.servers.length ∧
    (C9_state.request_queue.length : ℚ) / (C9_state.servers.length : ℚ) > 9 / 5 ∧
    ∃ w : WebServer,
      (scaling_pass (fun _ => 0) C9_state).servers = C9_state.servers ++ [w] ∧
      w.is_idle = true ∧ w.processed_time = 0 ∧
      w.num_webserver = (C9_state.servers.length : Int) + 1 ∧
      (scaling_pass (fun _ => 0) C9_state).servers.length = C9_state.servers.length + 1 ∧
      (scaling_pass (fun _ => 0) C9_state).servers.take C9_state.servers.length =
        C9_state.servers ∧
      (scaling_pass (fun _ => 0) C9_state).request_queue = C9_state.request_queue ∧
      (scaling_pass (fun _ => 0) C9_state).num_servers = C9_state.num_servers + 1 :=
  ⟨by decide, by decide, by decide!,
   C9_scale_up_appends_one_idle_worker (fun _ => 0) C9_state (by decide) (by decide)
     (by decide!)⟩

/-- C10: at a scaling pass with pool size `n > 1` (the counter `num_servers` agreeing with the
pool) and load `q / n < 1`, exactly the last worker of the pool is removed: the pool becomes its
first `n - 1` workers, unchanged, and the pending queue is unchanged, so the request held by a
busy removed worker is on no queue and on no worker afterwards. -/
theorem C10_scale_down_removes_last_worker (uninit : Nat → Int) (lb : LoadBalancer)
    (hn : 1 < lb.servers.length) (hc : lb.num_servers = lb.servers.length)
    (hload : (lb.request_queue.length : ℚ) / (lb.servers.length : ℚ) < 1) :
    ∃ last : WebServer,
      lb.servers = (scaling_pass uninit lb).servers ++ [last] ∧
      (scaling_pass uninit lb).servers = lb.servers.take (lb.servers.length - 1) ∧
      (scaling_pass uninit lb).servers.length = lb.servers.length - 1 ∧
      (scaling_pass uninit lb).request_queue = lb.request_queue ∧
      (scaling_pass uninit lb).num_servers = lb.num_servers - 1 ∧
      (scaling_pass uninit lb).output_stream = lb.output_stream ++
        [Record.removing_server lb.servers.length, Record.server_closed last.num_webserver] := by
  have hn1 : 1 ≤ lb.servers.length := by omega
  have hgt : (queue_per_server lb).gt ADD_THRESHOLD = false := by
    have hnot : ¬ (lb.request_queue.length : ℚ) / (lb.servers.length : ℚ) > 9 / 5 := by
      intro h
      linarith
    simpa using (not_congr (gt_add_threshold_iff lb hn1 hc)).2 hnot
  obtain ⟨last, hlast, hsc⟩ := scaling_pass_remove uninit lb hgt
    ((lt_remove_threshold_iff lb hn1 hc).2 hload) hn
  refine ⟨last, ?_, ?_, ?_, ?_, ?_, ?_⟩
  · rw [hsc]
    exact hlast
  · rw [hsc]
    exact List.dropLast_eq_take _
  · rw [hsc]
    simp
  · rw [hsc]
  · rw [hsc]
  · rw [hsc]
    simp [WebServer.destructor]

/-- Witness of C10 at `C10_state`: busy worker 3 is removed and the queue still holds only the
one request it held before. -/
theorem C10_witness :
    1 < C10_state.servers.length ∧ C10_state.num_servers = C10_state.servers.length ∧
    (C10_state.request_queue.length : ℚ) / (C10_state.servers.length : ℚ) < 1 ∧
    ∃ last : WebServer,
      C10_state.servers = (scaling_pass (fun _ => 0) C10_state).servers ++ [last] ∧
      (scaling_pass (fun _ => 0) C10_state).servers =
        C10_state.servers.take (C10_state.servers.length - 1) ∧
      (scaling_pass (fun _ => 0) C10_state).servers.length = C10_state.servers.length - 1 ∧
      (scaling_pass (fun _ => 0) C10_state).request_queue = C10_state.request_queue ∧
      (scaling_pass (fun _ => 0) C10_state).num_servers = C10_state.num_servers - 1 ∧
      (scaling_pass (fun _ => 0) C10_state).output_stream = C10_state.output_stream ++
        [Record.removing_server C10_state.servers.length,
         Record.server_closed last.num_webserver] :=
  ⟨by decide, by decide, by decide!,
   C10_scale_down_removes_last_worker (fun _ => 0) C10_state (by decide) (by decide)
     (by decide!)⟩

/-- C11 fails on the code: with 0 requested workers and a budget of 3 cycles (all draws 0), `main`
returns 0 and the log holds the cycle headers 1, 2, 3; the constructor has returned a state with
`num_servers = 0`, and the run ends with one worker in the pool.  With a budget of 0 cycles and
1 worker, `main` also returns 0 after the constructor has queued 100 requests. -/
theorem C11_zero_workers_reports_no_error :
    (main (fun _ => 0) (fun _ => 0) 3 0 true).1 = Exit.returned 0 ∧
    cycle_headers (main (fun _ => 0) (fun _ => 0) 3 0 true).2 = [1, 2, 3] ∧
    (∃ lb0 : LoadBalancer,
      LoadBalancer.new (fun _ => 0) (fun _ => 0) 0 3 [Record.started] = Except.ok lb0 ∧
      lb0.num_servers = 0 ∧
      (handle_requests (fun _ => 0) (fun _ => 0) lb0).servers.length = 1) ∧
    (main (fun _ => 1) (fun _ => 0) 0 1 true).1 = Exit.returned 0 ∧
    (∃ lb0 : LoadBalancer,
      LoadBalancer.new (fun _ => 1) (fun _ => 0) 1 0 [Record.started] = Except.ok lb0 ∧
      lb0.request_queue.length = 100) :=
  ⟨by decide!, by decide!, ⟨_, rfl, by decide!⟩, by decide!, ⟨_, rfl, by decide!⟩⟩

/-- C11 as amended.  For a requested worker count `-21474836 ≤ N < 0` the constructor fails with
`std::length_error`, thrown by `servers.reserve`, before any worker is created and before
anything is written; the number of starting requests `100 * N` is not positive, so that no
request has been generated before the throw; `main` does not catch the exception and is
terminated, the log holding only its first line.  For `N = 0` no error is reported: the
constructor returns the state with no pending request, no worker and `num_servers = 0`, having
written its six summary lines, `handle_requests` runs `T` cycles on it and `main` returns 0.
For a budget `T ≤ 0` and `N ≥ 0` no error is reported either: the constructor returns a state,
`handle_requests` returns it unchanged and `main` returns 0. -/
theorem C11_only_negative_counts_fail (rand : Nat → Nat) (uninit : Nat → Int)
    (T : Int) (out : List Record) :
    (∀ N : Int, -21474836 ≤ N → N < 0 →
      LoadBalancer.new rand uninit N T out = Except.error Exception.length_error ∧
      (wrap_int (100 * N)).toNat = 0 ∧
      main rand uninit T N true = (Exit.terminated Exception.length_error, [Record.started])) ∧
    (LoadBalancer.new rand uninit 0 T out =
        Except.ok
          { num_servers := 0
            time_to_run := T
            time_elapsed := 0
            min_request_time := 5
            max_request_time := 45
            output_stream := out ++
              [Record.init_servers 0, Record.init_cycles T, Record.init_queue 0,
               Record.init_max 45, Record.init_min 5, Record.init_banner]
            request_queue := []
            servers := []
            rand_calls := 0
            allocs := 0 } ∧
      (main rand uninit T 0 true).1 = Exit.returned 0) ∧
    (∀ N : Int, 0 ≤ N → ∃ lb0 : LoadBalancer,
      LoadBalancer.new rand uninit N T out = Except.ok lb0 ∧
      handle_requests rand uninit lb0 = cycles rand uninit T.toNat lb0 ∧
      (T ≤ 0 → handle_requests rand uninit lb0 = lb0) ∧
      (main rand uninit T N true).1 = Exit.returned 0) := by
  refine ⟨?_, ⟨?_, ?_⟩, ?_⟩
  · intro N hmin hN
    refine ⟨new_of_neg rand uninit N T out hN, ?_, ?_⟩
    · rw [wrap_int_eq _ (by omega) (by omega)]
      omega
    · simp [main, new_of_neg rand uninit N T _ hN]
  · rw [new_of_nonneg rand uninit 0 T out (by omega)]
    have h1 : (wrap_int (100 * 0)).toNat = 0 := by decide
    simp [LoadBalancer.constructed, LoadBalancer.members, h1, fill_queue, fill_servers]
    decide
  · simp [main, new_of_nonneg rand uninit 0 T _ (by omega)]
  · intro N hN
    have hrun : handle_requests rand uninit (LoadBalancer.constructed rand uninit N T out) =
        cycles rand uninit T.toNat (LoadBalancer.constructed rand uninit N T out) := by
      rw [handle_requests_eq_cycles, constructed_time_elapsed, constructed_time_to_run]
      simp
    refine ⟨LoadBalancer.constructed rand uninit N T out,
      new_of_nonneg rand uninit N T out hN, hrun, ?_, ?_⟩
    · intro hT
      have h0 : T.toNat = 0 := by omega
      rw [hrun, h0]
      rfl
    · simp [main, new_of_nonneg rand uninit N T _ hN]

/-- Witness of the amended C11: at `N = -1`, `T = 2` the program is terminated by the
exception, and at `N = 0`, `T = 2` it returns 0. -/
theorem C11_witness :
    (-1 : Int) < 0 ∧
    main (fun _ => 1) (fun _ => 0) 2 (-1) true =
      (Exit.terminated Exception.length_error, [Record.started]) ∧
    (main (fun _ => 1) (fun _ => 0) 2 0 true).1 = Exit.returned 0 :=
  ⟨by decide,
   ((C11_only_negative_counts_fail (fun _ => 1) (fun _ => 0) 2 []).1 (-1)
      (by decide) (by decide)).2.2,
   (C11_only_negative_counts_fail (fun _ => 1) (fun _ => 0) 2 []).2.1.2⟩

/-- C12 fails on the code: for `N = 21474837` the `int` product `100 * num_servers` leaves the
`int` range and wraps to a negative number, so that the constructor returns a state with no
pending request at all, not `100 × N` of them. -/
theorem C12_large_count_queues_nothing :
    (1 : Int) ≤ 21474837 ∧
    ∃ lb0 : LoadBalancer,
      LoadBalancer.new (fun _ => 7) (fun _ => 0) 21474837 3 [] = Except.ok lb0 ∧
      lb0.request_queue.length = 0 ∧
      (lb0.request_queue.length : Int) ≠ 100 * 21474837 := by
  have hq : (LoadBalancer.constructed (fun _ => 7) (fun _ => 0) 21474837 3 []).request_queue.length
      = 0 := by
    rw [constructed_queue_length]
    decide
  refine ⟨by decide, _, new_of_nonneg _ _ 21474837 3 [] (by decide), hq, ?_⟩
  rw [hq]
  decide

/-- C12 as amended: for `1 ≤ N ≤ 21474836` (so that `100 × N` fits in an `int`), any `T` and
any draws, the constructor returns a state with exactly `100 × N` pending requests and exactly
`N` workers whose identifiers in pool order are `1, 2, ..., N`; every worker is idle with
`processed_time = 0`, `time_elapsed = 0`, the duration bounds are 5 and 45, and `num_servers`
and `time_to_run` hold `N` and `T`. -/
theorem C12_constructor_builds_initial_state (rand : Nat → Nat) (uninit : Nat → Int)
    (N T : Int) (out : List Record) (hN : 1 ≤ N) (hmax : N ≤ 21474836) :
    ∃ lb0 : LoadBalancer, LoadBalancer.new rand uninit N T out = Except.ok lb0 ∧
      (lb0.request_queue.length : Int) = 100 * N ∧
      (lb0.servers.length : Int) = N ∧
      lb0.servers.map (fun s => s.num_webserver) =
        (List.range N.toNat).map (fun j : Nat => (j : Int) + 1) ∧
      (∀ s ∈ lb0.servers, s.is_idle = true ∧ s.processed_time = 0) ∧
      lb0.time_elapsed = 0 ∧
      lb0.min_request_time = 5 ∧
      lb0.max_request_time = 45 ∧
      lb0.num_servers = N ∧
      lb0.time_to_run = T := by
  refine ⟨LoadBalancer.constructed rand uninit N T out,
    new_of_nonneg rand uninit N T out (by omega), ?_, ?_,
    constructed_ids rand uninit N T out, constructed_fresh rand uninit N T out,
    constructed_time_elapsed rand uninit N T out, (constructed_bounds rand uninit N T out).1,
    (constructed_bounds rand uninit N T out).2, constructed_num_servers rand uninit N T out,
    constructed_time_to_run rand uninit N T out⟩
  · rw [constructed_queue_length, wrap_int_eq _ (by omega) (by omega)]
    omega
  · rw [constructed_servers_length]
    omega

/-- Witness of the amended C12 at `N = 2`, `T = 3`, all draws 7. -/
theorem C12_witness :
    (1 : Int) ≤ 2 ∧ (2 : Int) ≤ 21474836 ∧
    ∃ lb0 : LoadBalancer,
      LoadBalancer.new (fun _ => 7) (fun _ => 0) 2 3 [] = Except.ok lb0 ∧
      (lb0.request_queue.length : Int) = 100 * 2 :=
  ⟨by decide, by decide,
   (C12_constructor_builds_initial_state (fun _ => 7) (fun _ => 0) 2 3 []
      (by decide) (by decide)).imp (fun _ h => ⟨h.1, h.2.1⟩)⟩

/-- C15: from a state with one idle worker, an empty pending queue, `num_servers = 1`,
`time_elapsed = 0` and a budget `T ≥ 0`, with arrivals disabled (no draw is a multiple of 3):
`handle_requests` runs `T` cycles and writes exactly the `T` cycle headers `1, ..., T`; after
every number of cycles the pool is one idle worker and the queue is empty; and the shutdown
report ends with 0 requests remaining, 0 busy servers and 1 idle server. -/
theorem C15_idle_run (rand : Nat → Nat) (uninit : Nat → Int) (T : Int) (lb : LoadBalancer)
    (w : WebServer) (hT : 0 ≤ T) (harr : ∀ i : Nat, Int.tmod (rand i : Int) 3 ≠ 0)
    (hs : lb.servers = [w]) (hw : w.is_idle = true) (hq : lb.request_queue = [])
    (hn : lb.num_servers = 1) (he : lb.time_elapsed = 0) (ht : lb.time_to_run = T) :
    handle_requests rand uninit lb = cycles rand uninit T.toNat lb ∧
    cycle_headers (handle_requests rand uninit lb).output_stream =
      cycle_headers lb.output_stream ++ (List.range T.toNat).map (fun j : Nat => (j : Int) + 1) ∧
    (∀ k : Nat, ∃ wk : WebServer, (cycles rand uninit k lb).servers = [wk] ∧
      wk.is_idle = true ∧ (cycles rand uninit k lb).request_queue = []) ∧
    (∃ pre : List Record, (handle_requests rand uninit lb).destructor.output_stream = pre ++
      [Record.requests_remaining 0, Record.busy_servers 0, Record.idle_servers 1]) := by
  have _hT := hT
  have hsi : single_idle lb := by
    refine ⟨by rw [hs]; rfl, ?_, hq, hn⟩
    intro s hmem
    rw [hs] at hmem
    rw [List.mem_singleton.1 hmem]
    exact hw
  have hrun : handle_requests rand uninit lb = cycles rand uninit T.toNat lb := by
    rw [handle_requests_eq_cycles, he, ht]
    simp
  refine ⟨hrun, ?_, ?_, ?_⟩
  · rw [hrun, (single_idle_cycles rand uninit T.toNat lb harr hsi).2, he]
    simp
  · intro k
    obtain ⟨hlen, hidle, hqk, _⟩ := (single_idle_cycles rand uninit k lb harr hsi).1
    obtain ⟨wk, hwk⟩ := List.length_eq_one.1 hlen
    exact ⟨wk, hwk, hidle wk (by rw [hwk]; exact List.mem_singleton_self wk), hqk⟩
  · rw [hrun]
    exact single_idle_shutdown _ (single_idle_cycles rand uninit T.toNat lb harr hsi).1

/-- Witness of C15 at `C15_state` (`T = 3`) with every draw equal to 1. -/
theorem C15_witness :
    (0 : Int) ≤ 3 ∧
    C15_state.request_queue = [] ∧ C15_state.num_servers = 1 ∧
    C15_state.time_elapsed = 0 ∧ C15_state.time_to_run = 3 ∧
    cycle_headers (handle_requests (fun _ => 1) (fun _ => 0) C15_state).output_stream =
      cycle_headers C15_state.output_stream ++
        (List.range (3 : Int).toNat).map (fun j : Nat => (j : Int) + 1) :=
  ⟨by decide, rfl, rfl, rfl, rfl,
   (C15_idle_run (fun _ => 1) (fun _ => 0) 3 C15_state
      { num_webserver := 1, current := { ip_in := "", ip_out := "", time := 0 },
        is_idle := true, processed_time := 0 }
      (by decide) (fun _ => (by decide : Int.tmod ((1 : Nat) : Int) 3 ≠ 0))
      rfl rfl rfl rfl rfl rfl).2.1⟩

/-- C16: in any cycle the line "No requests processed this cycle: all servers busy." is written
exactly once if the pending queue is non-empty at the start of the cycle and every worker of the
pool is busy at the start of the assignment pass, and not at all otherwise (the number of such
lines in the log grows by 1 or by 0 accordingly, over the assignment pass and over the whole
cycle).  When it is written, it is followed by "Queue Size: q" with `q` the queue length at the
start of the cycle, and the assignment pass leaves the queue, the pool and every counter as
they were: only the log has grown. -/
theorem C16_all_servers_busy_line (rand : Nat → Nat) (uninit : Nat → Int)
    (lb : LoadBalancer) :
    (cycle rand uninit lb).output_stream.count Record.all_servers_busy =
      lb.output_stream.count Record.all_servers_busy +
        (if lb.request_queue ≠ [] ∧ ∀ s ∈ lb.servers, s.is_idle = false then 1 else 0) ∧
    (assignment_pass lb).output_stream.count Record.all_servers_busy =
      lb.output_stream.count Record.all_servers_busy +
        (if lb.request_queue ≠ [] ∧ ∀ s ∈ lb.servers, s.is_idle = false then 1 else 0) ∧
    (lb.request_queue ≠ [] → (∀ s ∈ lb.servers, s.is_idle = false) →
      assignment_pass lb =
        { lb with
          output_stream := lb.output_stream ++
            [Record.cycle_header (lb.time_elapsed + 1),
             Record.current_queue_size (lb.request_queue.length : Int),
             Record.all_servers_busy,
             Record.queue_size (lb.request_queue.length : Int),
             Record.idle_servers (lb.num_servers - (lb.servers.length : Int)),
             Record.total_servers lb.num_servers] }) := by
  refine ⟨cycle_count_busy_line rand uninit lb, assignment_pass_count_busy_line lb, ?_⟩
  intro hq hbusy
  have hlen : 0 < lb.request_queue.length := List.length_pos.2 hq
  unfold assignment_pass
  simp only [assign_loop_all_busy _ _ hbusy]
  simp [hlen]

/-- Witness of C16 at `C16_state`: both workers are busy and three requests are pending. -/
theorem C16_witness :
    C16_state.request_queue ≠ [] ∧
    assignment_pass C16_state =
      { C16_state with
        output_stream := C16_state.output_stream ++
          [Record.cycle_header (C16_state.time_elapsed + 1),
           Record.current_queue_size (C16_state.request_queue.length : Int),
           Record.all_servers_busy,
           Record.queue_size (C16_state.request_queue.length : Int),
           Record.idle_servers (C16_state.num_servers - (C16_state.servers.length : Int)),
           Record.total_servers C16_state.num_servers] } :=
  ⟨by decide,
   (C16_all_servers_busy_line (fun _ => 0) (fun _ => 0) C16_state).2.2
     (by decide) (by decide)⟩

/-- C17: the constructor called with `N ≥ 1` returns a state `lb0`, and in every state `lb`
reached from it after any number `k` of cycles (`k = 0`: right after construction), the counter
`num_servers` is the number of workers in the pool.  Hence the load computed by the scaling pass
of the next cycle is the queue length divided by the true pool size, the idle count written by
the assignment pass is the number of workers that are idle after the pass, and the idle count of
the shutdown report is the number of idle workers (the busy count being the number of busy
ones). -/
theorem C17_num_servers_is_pool_size (rand : Nat → Nat) (uninit : Nat → Int)
    (N T : Int) (out : List Record) (hN : 1 ≤ N) (k : Nat) :
    ∃ lb0 : LoadBalancer, LoadBalancer.new rand uninit N T out = Except.ok lb0 ∧
      ∀ lb : LoadBalancer, lb = cycles rand uninit k lb0 →
        lb.num_servers = lb.servers.length ∧
        queue_per_server (time_advance_pass (assignment_pass lb)) =
          Double.fin
            (((assignment_pass lb).request_queue.length : ℚ) / (lb.servers.length : ℚ)) ∧
        (∃ pre : List Record, (assignment_pass lb).output_stream = pre ++
          [Record.idle_servers (idle_count (assignment_pass lb).servers),
           Record.total_servers lb.servers.length]) ∧
        (∃ pre : List Record, lb.destructor.output_stream = pre ++
          [Record.requests_remaining lb.request_queue.length,
           Record.busy_servers (busy_count lb.servers),
           Record.idle_servers (idle_count lb.servers)]) := by
  refine ⟨LoadBalancer.constructed rand uninit N T out,
    new_of_nonneg rand uninit N T out (by omega), ?_⟩
  intro lb hlb
  have hc : lb.num_servers = lb.servers.length := by
    rw [hlb]
    exact cycles_count rand uninit k _ (constructed_count rand uninit N T out (by omega))
  have hpos : 1 ≤ lb.servers.length := by
    rw [hlb]
    apply cycles_length_pos
    rw [constructed_servers_length]
    omega
  refine ⟨hc, ?_, ?_, ?_⟩
  · have h := queue_per_server_eq (time_advance_pass (assignment_pass lb))
      (by simpa using hpos) (by simpa using hc)
    simpa using h
  · obtain ⟨pre, hpre⟩ := assignment_pass_report lb
    refine ⟨pre, ?_⟩
    have hsum := idle_count_add_busy_count (assignment_pass lb).servers
    rw [assignment_pass_servers_length] at hsum
    have hidle : lb.num_servers - (busy_count (assignment_pass lb).servers : Int) =
        (idle_count (assignment_pass lb).servers : Int) := by
      rw [hc]
      omega
    rw [hpre, hidle, hc]
  · have hsum := idle_count_add_busy_count lb.servers
    have hidle : lb.num_servers - (0 + (busy_count lb.servers : Int)) =
        (idle_count lb.servers : Int) := by
      rw [hc]
      omega
    refine ⟨lb.output_stream ++ [Record.closed_banner] ++ (final_status lb.servers 0).1 ++
      delete_servers lb.servers, ?_⟩
    simp only [destructor, final_status_count, hidle]
    simp

/-- Witness of C17 after 3 cycles of the run with `N = 1` and all draws 0. -/
theorem C17_witness :
    (1 : Int) ≤ 1 ∧
    ∃ lb0 : LoadBalancer,
      LoadBalancer.new (fun _ => 0) (fun _ => 0) 1 5 [] = Except.ok lb0 ∧
      (cycles (fun _ => 0) (fun _ => 0) 3 lb0).num_servers =
        (cycles (fun _ => 0) (fun _ => 0) 3 lb0).servers.length :=
  ⟨by decide,
   (C17_num_servers_is_pool_size (fun _ => 0) (fun _ => 0) 1 5 [] (by decide) 3).imp
     (fun _ h => ⟨h.1, (h.2 _ rfl).1⟩)⟩

/-- C18: the constructor called with `N ≥ 1` returns a state `lb0`, and in every state `lb`
reached from it after any number `k` of cycles, the worker at 0-based position `p` of the pool
has identifier `p + 1`: the identifiers in pool order are `1, 2, ..., pool size`, they are
pairwise distinct, and a number is the identifier of a worker of the pool exactly when it lies
between 1 and the pool size. -/
theorem C18_identifiers_are_positions (rand : Nat → Nat) (uninit : Nat → Int)
    (N T : Int) (out : List Record) (hN : 1 ≤ N) (k : Nat) :
    ∃ lb0 : LoadBalancer, LoadBalancer.new rand uninit N T out = Except.ok lb0 ∧
      ∀ lb : LoadBalancer, lb = cycles rand uninit k lb0 →
        (∀ (p : Nat) (s : WebServer), lb.servers[p]? = some s →
          s.num_webserver = (p : Int) + 1) ∧
        lb.servers.map (fun s => s.num_webserver) =
          (List.range lb.servers.length).map (fun j : Nat => (j : Int) + 1) ∧
        (lb.servers.map (fun s => s.num_webserver)).Nodup ∧
        (∀ i : Int, i ∈ lb.servers.map (fun s => s.num_webserver) ↔
          1 ≤ i ∧ i ≤ lb.servers.length) := by
  refine ⟨LoadBalancer.constructed rand uninit N T out,
    new_of_nonneg rand uninit N T out (by omega), ?_⟩
  intro lb hlb
  have h : sequential_ids lb.servers := by
    rw [hlb]
    exact cycles_ids rand uninit k _ (constructed_sequential_ids rand uninit N T out)
  exact ⟨sequential_ids_getElem? _ h, h, sequential_ids_nodup _ h, sequential_ids_mem _ h⟩

/-- Witness of C18 after 3 cycles of the run with `N = 1` and all draws 0. -/
theorem C18_witness :
    (1 : Int) ≤ 1 ∧
    ∃ lb0 : LoadBalancer,
      LoadBalancer.new (fun _ => 0) (fun _ => 0) 1 5 [] = Except.ok lb0 ∧
      ((cycles (fun _ => 0) (fun _ => 0) 3 lb0).servers.map
        (fun s => s.num_webserver)).Nodup :=
  ⟨by decide,
   (C18_identifiers_are_positions (fun _ => 0) (fun _ => 0) 1 5 [] (by decide) 3).imp
     (fun _ h => ⟨h.1, (h.2 _ rfl).2.2.1⟩)⟩

/-- C19: right after the assignment pass of any cycle, either the pending queue is empty or
every worker of the pool is busy. -/
theorem C19_assignment_pass_is_work_conserving (lb : LoadBalancer) :
    (assignment_pass lb).request_queue = [] ∨
    ∀ s ∈ (assignment_pass lb).servers, s.is_idle = false := by
  by_cases h : idle_count lb.servers ≤ lb.request_queue.length
  · right
    apply idle_count_eq_zero
    have hi : idle_count (assignment_pass lb).servers =
        idle_count lb.servers - min (idle_count lb.servers) lb.request_queue.length := by
      simp [assignment_pass, assign_loop_idle_count]
    rw [hi, Nat.min_eq_left h]
    omega
  · left
    rw [assignment_pass_queue, Nat.min_eq_right (by omega)]
    simp

end LB
